import Mathlib

/-!
Shallow embedding of the Clocky storage layer (`src/lib/storage.ts`).

The storage layer keeps two isolated chrome storage areas ("sync" and
"local"), a module-level memoization cache with a 5 second TTL, and CRUD
operations over a list of site entries plus a reminder-settings record.
We embed the module as a pure state machine: `MachineState` carries the
two backing stores, the cache variables (`sitesCache`, `settingsCache`,
`cacheTimestamp`) and two instrumentation counters that count underlying
`storage.get` / `storage.set` calls.  Every operation takes the current
time `now : Int` (milliseconds, the value of `Date.now()`) explicitly;
`addSite` additionally takes the string produced by `generateId()` as a
parameter, since that helper is randomized.
-/

namespace Clocky

/-- Calendar date triple as produced by `Date.getFullYear` /
`getMonth + 1` / `getDate`. -/
structure YMD where
  year : Int
  month : Nat
  day : Nat
deriving DecidableEq, Repr

/-- Civil date from a count of days since 1970-01-01 (the standard
era-decomposition algorithm used by calendar libraries).  This embeds the
calendar arithmetic behind the `Date` accessors used in `isToday`. -/
def civilFromDays (z0 : Int) : YMD :=
  let z := z0 + 719468
  let era : Int := Int.fdiv z 146097
  let doe : Nat := (z - era * 146097).toNat
  let yoe : Nat := (doe - doe / 1460 + doe / 36524 - doe / 146096) / 365
  let doy : Nat := doe - (365 * yoe + yoe / 4 - yoe / 100)
  let mp : Nat := (5 * doy + 2) / 153
  let d : Nat := doy - (153 * mp + 2) / 5 + 1
  let m : Nat := if mp < 10 then mp + 3 else mp - 9
  let y : Int := (yoe : Int) + era * 400 + (if m ≤ 2 then 1 else 0)
  ⟨y, m, d⟩

/-- Milliseconds in one day. -/
def msPerDay : Int := 86400000

/-- Local calendar date of a millisecond timestamp.  The model fixes the
local timezone offset to zero (UTC); the source uses the local variants
of the `Date` accessors, which correspond to a fixed offset added to the
timestamp before the day decomposition. -/
def localDate (t : Int) : YMD := civilFromDays (Int.fdiv t msPerDay)

/-- Embedding of `isToday` from `src/lib/storage.ts`: false for null,
otherwise true iff year, month and day of the timestamp equal those of
`now` (the current moment, passed explicitly). -/
def isToday (timestamp : Option Int) (now : Int) : Bool :=
  match timestamp with
  | none => false
  | some t =>
      let today := localDate now
      let date := localDate t
      today.year == date.year && today.month == date.month && today.day == date.day

/-- Split a character list at the first occurrence of the separator
`://`, returning the part before and the part after it. -/
def splitAtSchemeSep : List Char → Option (List Char × List Char)
  | [] => none
  | ':' :: '/' :: '/' :: rest => some ([], rest)
  | c :: rest => (splitAtSchemeSep rest).map (fun y => (c :: y.1, y.2))

/-- Model of the platform WHATWG `new URL(url).hostname` restricted to
the `scheme://host...` shape: parsing succeeds when the string has a
nonempty alphabetic scheme followed by `://`, and the hostname is the
authority part up to the first delimiter.  Strings without that shape
(the ones for which the `URL` constructor throws) yield `none`. -/
def parseURLHostname (url : String) : Option String :=
  match splitAtSchemeSep url.data with
  | none => none
  | some (scheme, rest) =>
      if (!scheme.isEmpty) && scheme.all Char.isAlpha then
        some (String.mk (rest.takeWhile (fun c =>
          c ≠ '/' && c ≠ ':' && c ≠ '?' && c ≠ '#' && c ≠ '@')))
      else none

/-- Embedding of `extractHostname`: the parsed hostname, or the raw input
string when the `URL` constructor throws (the catch branch). -/
def extractHostname (url : String) : String :=
  (parseURLHostname url).getD url

/-- Check-in record type tag: automatic visit or manual check-in. -/
inductive RecordType
  | visit
  | manual
deriving DecidableEq, Repr

/-- Embedding of `CheckInRecord`. -/
structure CheckInRecord where
  timestamp : Int
  type : RecordType
deriving DecidableEq, Repr

/-- Embedding of `CheckInFrequency`. -/
inductive CheckInFrequency
  | daily
  | weekly
  | monthly
  | custom
deriving DecidableEq, Repr

/-- Embedding of `ThemePreference`. -/
inductive ThemePreference
  | light
  | dark
  | system
deriving DecidableEq, Repr

/-- Embedding of `ReminderTime` (days hold weekday numbers 0-6). -/
structure ReminderTime where
  id : String
  hour : Int
  minute : Int
  days : List Nat
  enabled : Bool
deriving DecidableEq, Repr

/-- Embedding of `ReminderSettings`. -/
structure ReminderSettings where
  enabled : Bool
  times : List ReminderTime
  sound : Bool
  snoozeMinutes : Int
  autoMarkOnVisit : Bool
  theme : ThemePreference
  showBadge : Bool
  resetTime : Int
deriving DecidableEq, Repr

/-- A partial `ReminderSettings` object: each field may be absent.  This
is the shape of the stored `settings` value and of the patch accepted by
`updateSettings` (`Partial<ReminderSettings>` in the source). -/
structure PartialSettings where
  enabled : Option Bool := none
  times : Option (List ReminderTime) := none
  sound : Option Bool := none
  snoozeMinutes : Option Int := none
  autoMarkOnVisit : Option Bool := none
  theme : Option ThemePreference := none
  showBadge : Option Bool := none
  resetTime : Option Int := none
deriving DecidableEq, Repr

/-- The empty partial settings object (`{}` in the source). -/
def emptyPartialSettings : PartialSettings := {}

/-- Shallow merge `\x7b ...base, ...patch \x7d`: a key present in the
patch wins, otherwise the base value is kept. -/
def mergeSettings (base : ReminderSettings) (p : PartialSettings) : ReminderSettings where
  enabled := p.enabled.getD base.enabled
  times := p.times.getD base.times
  sound := p.sound.getD base.sound
  snoozeMinutes := p.snoozeMinutes.getD base.snoozeMinutes
  autoMarkOnVisit := p.autoMarkOnVisit.getD base.autoMarkOnVisit
  theme := p.theme.getD base.theme
  showBadge := p.showBadge.getD base.showBadge
  resetTime := p.resetTime.getD base.resetTime

/-- View a full settings object as a stored object with every key
present (what `storage.set` persists after `updateSettings`). -/
def toPartialSettings (x : ReminderSettings) : PartialSettings where
  enabled := some x.enabled
  times := some x.times
  sound := some x.sound
  snoozeMinutes := some x.snoozeMinutes
  autoMarkOnVisit := some x.autoMarkOnVisit
  theme := some x.theme
  showBadge := some x.showBadge
  resetTime := some x.resetTime

/-- Embedding of `DEFAULT_REMINDER_TIME` (09:00, Monday to Friday,
enabled). -/
def DEFAULT_REMINDER_TIME : ReminderTime :=
  { id := "default", hour := 9, minute := 0, days := [1, 2, 3, 4, 5], enabled := true }

/-- Embedding of `DEFAULT_REMINDER_SETTINGS`. -/
def DEFAULT_REMINDER_SETTINGS : ReminderSettings :=
  { enabled := false
    times := [DEFAULT_REMINDER_TIME]
    sound := true
    snoozeMinutes := 30
    autoMarkOnVisit := false
    theme := ThemePreference.system
    showBadge := true
    resetTime := 0 }

/-- Embedding of `SiteEntry`.  Optional source fields (`notes?`,
`tags?`) are `Option`-valued. -/
structure SiteEntry where
  id : String
  title : String
  url : String
  hostname : String
  favicon : String
  notes : Option String := none
  tags : Option (List String) := none
  visitedStatus : Bool
  checkedInStatus : Bool
  lastVisitedAt : Option Int
  lastCheckedInAt : Option Int
  checkInHistory : List CheckInRecord
  frequency : CheckInFrequency
  autoDetect : Bool
  reminderEnabled : Bool
  createdAt : Int
  updatedAt : Int
deriving DecidableEq, Repr

/-- Embedding of `AddSiteInput`. -/
structure AddSiteInput where
  title : String
  url : String
  favicon : Option String := none
  notes : Option String := none
  tags : Option (List String) := none
  frequency : Option CheckInFrequency := none
  autoDetect : Option Bool := none
  reminderEnabled : Option Bool := none
deriving DecidableEq, Repr

/-- Embedding of `UpdateSiteInput = Partial<Omit<SiteEntry,
id | createdAt | updatedAt | hostname>>`: every remaining field of
`SiteEntry` may appear in the patch, including `checkInHistory`. -/
structure UpdateSiteInput where
  title : Option String := none
  url : Option String := none
  favicon : Option String := none
  notes : Option String := none
  tags : Option (List String) := none
  visitedStatus : Option Bool := none
  checkedInStatus : Option Bool := none
  lastVisitedAt : Option (Option Int) := none
  lastCheckedInAt : Option (Option Int) := none
  checkInHistory : Option (List CheckInRecord) := none
  frequency : Option CheckInFrequency := none
  autoDetect : Option Bool := none
  reminderEnabled : Option Bool := none
deriving DecidableEq, Repr

/-- Embedding of `StatusType`. -/
inductive StatusType
  | visited
  | checkedIn
deriving DecidableEq, Repr

/-- Embedding of `StorageArea`. -/
inductive StorageArea
  | sync
  | local
deriving DecidableEq, Repr

/-- One chrome storage area: the values stored under the `sites` and
`settings` keys (`none` when the key is absent). -/
structure AreaStore where
  sites : Option (List SiteEntry) := none
  settings : Option PartialSettings := none
deriving DecidableEq, Repr

/-- The module-level cache variables of `src/lib/storage.ts`
(`settingsCache`, `sitesCache`, `cacheTimestamp`).  Note there is a
single timestamp and the cache is not keyed by storage area. -/
structure CacheState where
  settingsCache : Option ReminderSettings := none
  sitesCache : Option (List SiteEntry) := none
  cacheTimestamp : Int := 0
deriving DecidableEq, Repr

/-- Full state of the storage module: the two backing stores, the cache,
and instrumentation counters for underlying `storage.get` and
`storage.set` calls (the storage-call counter observable in tests). -/
structure MachineState where
  syncStore : AreaStore := {}
  localStore : AreaStore := {}
  cache : CacheState := {}
  getCount : Nat := 0
  setCount : Nat := 0
deriving DecidableEq, Repr

/-- The initial state: both areas empty, cache empty. -/
def initialState : MachineState := {}

/-- Embedding of `CACHE_TTL`. -/
def CACHE_TTL : Int := 5000

/-- Embedding of `isCacheValid`. -/
def isCacheValid (now : Int) (c : CacheState) : Bool :=
  now - c.cacheTimestamp < CACHE_TTL

/-- Embedding of `invalidateCache`: both caches cleared, timestamp 0. -/
def invalidatedCache : CacheState := ⟨none, none, 0⟩

/-- Embedding of `getStorageArea`: select the backing store. -/
def storeOf (area : StorageArea) (s : MachineState) : AreaStore :=
  match area with
  | .sync => s.syncStore
  | .local => s.localStore

/-- Replace the selected backing store. -/
def setStore (area : StorageArea) (st : AreaStore) (s : MachineState) : MachineState :=
  match area with
  | .sync => { s with syncStore := st }
  | .local => { s with localStore := st }

/-- Recompute the derived status flags of one site from its timestamps,
as done inside `getSites` on every underlying read. -/
def deriveSite (now : Int) (site : SiteEntry) : SiteEntry :=
  { site with
    visitedStatus := isToday site.lastVisitedAt now
    checkedInStatus := isToday site.lastCheckedInAt now }

/-- The cache-miss branch of `getSites`: read the `sites` key of the
selected area (empty list when absent), derive the status flags, store
the result in the cache with a fresh timestamp, and return it. -/
def readSites (area : StorageArea) (now : Int) (s : MachineState) :
    List SiteEntry × MachineState :=
  let raw := (storeOf area s).sites.getD []
  let updatedSites := raw.map (deriveSite now)
  (updatedSites,
    { s with
      cache := { s.cache with sitesCache := some updatedSites, cacheTimestamp := now }
      getCount := s.getCount + 1 })

/-- Embedding of `getSites`: return the cached array when `sitesCache`
is non-null and the cache is valid, otherwise read through. -/
def getSitesOp (area : StorageArea) (now : Int) (s : MachineState) :
    List SiteEntry × MachineState :=
  match s.cache.sitesCache with
  | some cached => if isCacheValid now s.cache then (cached, s) else readSites area now s
  | none => readSites area now s

/-- Write the full sites collection of the selected area and invalidate
the cache, as the success path of every site mutation does. -/
def commitSites (area : StorageArea) (l : List SiteEntry) (s : MachineState) :
    MachineState :=
  let s1 := setStore area { storeOf area s with sites := some l } s
  { s1 with cache := invalidatedCache, setCount := s.setCount + 1 }

/-- Embedding of `getSiteById`: first element of `getSites` with the
given id, or null. -/
def getSiteByIdOp (id : String) (area : StorageArea) (now : Int) (s : MachineState) :
    Option SiteEntry × MachineState :=
  let (sites, s1) := getSitesOp area now s
  (sites.find? (fun site => site.id == id), s1)

/-- Embedding of `getSiteByUrl`: first element of `getSites` whose
hostname equals the derived hostname of the input URL, or null. -/
def getSiteByUrlOp (url : String) (area : StorageArea) (now : Int) (s : MachineState) :
    Option SiteEntry × MachineState :=
  let (sites, s1) := getSitesOp area now s
  let hostname := extractHostname url
  (sites.find? (fun site => site.hostname == hostname), s1)

/-- The record constructed by `addSite` for a non-duplicate input. -/
def newSiteEntry (input : AddSiteInput) (freshId hostname : String) (now : Int) :
    SiteEntry :=
  { id := freshId
    title := input.title
    url := input.url
    hostname := hostname
    favicon := input.favicon.getD ""
    notes := input.notes
    tags := some (input.tags.getD [])
    visitedStatus := false
    checkedInStatus := false
    lastVisitedAt := none
    lastCheckedInAt := none
    checkInHistory := []
    frequency := input.frequency.getD CheckInFrequency.daily
    autoDetect := input.autoDetect.getD true
    reminderEnabled := input.reminderEnabled.getD true
    createdAt := now
    updatedAt := now }

/-- Embedding of `addSite`.  `freshId` stands for the value returned by
the randomized `generateId()`.  The duplicate check runs over the array
returned by `getSites`; on failure the promise rejects after that read,
so the state still carries any cache population the read performed. -/
def addSiteOp (input : AddSiteInput) (freshId : String) (area : StorageArea)
    (now : Int) (s : MachineState) : Except String SiteEntry × MachineState :=
  let (sites, s1) := getSitesOp area now s
  let hostname := extractHostname input.url
  match sites.find? (fun site => site.hostname == hostname) with
  | some _ =>
      (Except.error ("Site with hostname \"" ++ hostname ++ "\" already exists"), s1)
  | none =>
      let newSite := newSiteEntry input freshId hostname now
      (Except.ok newSite, commitSites area (sites ++ [newSite]) s1)

/-- Split a list at the first element satisfying `p`, mirroring the
source pattern `findIndex` followed by the two `slice` calls. -/
def findSplit (p : α → Bool) : List α → Option (List α × α × List α)
  | [] => none
  | x :: xs =>
      if p x then some ([], x, xs)
      else (findSplit p xs).map (fun y => (x :: y.1, y.2.1, y.2.2))

/-- The per-record update performed by `updateStatus`: bump `updatedAt`;
when the value is true additionally stamp the matching timestamp and
append a history record; when false only the boolean flag changes. -/
def updateStatusSite (statusType : StatusType) (value : Bool) (now : Int)
    (site : SiteEntry) : SiteEntry :=
  let base := { site with updatedAt := now }
  match statusType with
  | .visited =>
      let u := { base with visitedStatus := value }
      if value then
        { u with
          lastVisitedAt := some now
          checkInHistory := site.checkInHistory ++ [⟨now, RecordType.visit⟩] }
      else u
  | .checkedIn =>
      let u := { base with checkedInStatus := value }
      if value then
        { u with
          lastCheckedInAt := some now
          checkInHistory := site.checkInHistory ++ [⟨now, RecordType.manual⟩] }
      else u

/-- Embedding of `updateStatus`. -/
def updateStatusOp (id : String) (statusType : StatusType) (value : Bool)
    (area : StorageArea) (now : Int) (s : MachineState) :
    Except String SiteEntry × MachineState :=
  let (sites, s1) := getSitesOp area now s
  match findSplit (fun site => site.id == id) sites with
  | none => (Except.error ("Site with id \"" ++ id ++ "\" not found"), s1)
  | some (pre, site, post) =>
      let updatedSite := updateStatusSite statusType value now site
      (Except.ok updatedSite, commitSites area (pre ++ updatedSite :: post) s1)

/-- Shallow merge of an update patch onto an existing record, with the
hostname and `updatedAt` set afterwards, mirroring
`\x7b ...site, ...updates, hostname, updatedAt: now \x7d`. -/
def mergeSite (site : SiteEntry) (u : UpdateSiteInput) (hostname : String)
    (now : Int) : SiteEntry :=
  { id := site.id
    title := u.title.getD site.title
    url := u.url.getD site.url
    hostname := hostname
    favicon := u.favicon.getD site.favicon
    notes := match u.notes with | some n => some n | none => site.notes
    tags := match u.tags with | some t => some t | none => site.tags
    visitedStatus := u.visitedStatus.getD site.visitedStatus
    checkedInStatus := u.checkedInStatus.getD site.checkedInStatus
    lastVisitedAt := u.lastVisitedAt.getD site.lastVisitedAt
    lastCheckedInAt := u.lastCheckedInAt.getD site.lastCheckedInAt
    checkInHistory := u.checkInHistory.getD site.checkInHistory
    frequency := u.frequency.getD site.frequency
    autoDetect := u.autoDetect.getD site.autoDetect
    reminderEnabled := u.reminderEnabled.getD site.reminderEnabled
    createdAt := site.createdAt
    updatedAt := now }

/-- Truthiness of `updates.url` in JavaScript: present and nonempty. -/
def urlTruthy (u : UpdateSiteInput) : Bool :=
  match u.url with
  | some v => v != ""
  | none => false

/-- Embedding of `updateSite`.  The hostname is recomputed, and the
duplicate check performed, only when `updates.url` is truthy; the
duplicate check excludes sites carrying the requested id. -/
def updateSiteOp (id : String) (updates : UpdateSiteInput) (area : StorageArea)
    (now : Int) (s : MachineState) : Except String SiteEntry × MachineState :=
  let (sites, s1) := getSitesOp area now s
  match findSplit (fun site => site.id == id) sites with
  | none => (Except.error ("Site with id \"" ++ id ++ "\" not found"), s1)
  | some (pre, site, post) =>
      let hostname :=
        if urlTruthy updates then extractHostname (updates.url.getD "") else site.hostname
      if urlTruthy updates
          && sites.any (fun t => t.hostname == hostname && t.id != id) then
        (Except.error ("Site with hostname \"" ++ hostname ++ "\" already exists"), s1)
      else
        let updatedSite := mergeSite site updates hostname now
        (Except.ok updatedSite, commitSites area (pre ++ updatedSite :: post) s1)

/-- Embedding of `deleteSite`. -/
def deleteSiteOp (id : String) (area : StorageArea) (now : Int) (s : MachineState) :
    Except String Bool × MachineState :=
  let (sites, s1) := getSitesOp area now s
  match findSplit (fun site => site.id == id) sites with
  | none => (Except.error ("Site with id \"" ++ id ++ "\" not found"), s1)
  | some (pre, _, post) =>
      (Except.ok true, commitSites area (pre ++ post) s1)

/-- The cache-miss branch of `getSettings`: read the stored partial
settings object of the selected area, merge it onto the defaults, cache
the result with a fresh timestamp. -/
def readSettings (area : StorageArea) (now : Int) (s : MachineState) :
    ReminderSettings × MachineState :=
  let stored := (storeOf area s).settings.getD emptyPartialSettings
  let settings := mergeSettings DEFAULT_REMINDER_SETTINGS stored
  (settings,
    { s with
      cache := { s.cache with settingsCache := some settings, cacheTimestamp := now }
      getCount := s.getCount + 1 })

/-- Embedding of `getSettings`. -/
def getSettingsOp (area : StorageArea) (now : Int) (s : MachineState) :
    ReminderSettings × MachineState :=
  match s.cache.settingsCache with
  | some cached => if isCacheValid now s.cache then (cached, s) else readSettings area now s
  | none => readSettings area now s

/-- Write the full settings object of the selected area and invalidate
the cache. -/
def commitSettings (area : StorageArea) (x : ReminderSettings) (s : MachineState) :
    MachineState :=
  let s1 := setStore area { storeOf area s with settings := some (toPartialSettings x) } s
  { s1 with cache := invalidatedCache, setCount := s.setCount + 1 }

/-- Embedding of `updateSettings`: read the current merged settings,
merge the patch on top, persist the full object, invalidate, return. -/
def updateSettingsOp (updates : PartialSettings) (area : StorageArea) (now : Int)
    (s : MachineState) : ReminderSettings × MachineState :=
  let (currentSettings, s1) := getSettingsOp area now s
  let updatedSettings := mergeSettings currentSettings updates
  (updatedSettings, commitSettings area updatedSettings s1)

/-- Embedding of `resetDailyStatus`: clear both boolean flags on every
site (timestamps and history untouched) and persist. -/
def resetDailyStatusOp (area : StorageArea) (now : Int) (s : MachineState) :
    List SiteEntry × MachineState :=
  let (sites, s1) := getSitesOp area now s
  let updatedSites :=
    sites.map (fun site => { site with visitedStatus := false, checkedInStatus := false })
  (updatedSites, commitSites area updatedSites s1)

/-- Embedding of `getPendingCount`: number of sites whose checked-in
status is false. -/
def getPendingCountOp (area : StorageArea) (now : Int) (s : MachineState) :
    Nat × MachineState :=
  let (sites, s1) := getSitesOp area now s
  ((sites.filter (fun site => !site.checkedInStatus)).length, s1)

/-- Embedding of `clearAllData`: `storage.clear()` removes every key of
the selected area, then the cache is invalidated. -/
def clearAllDataOp (area : StorageArea) (s : MachineState) : MachineState :=
  let s1 := setStore area {} s
  { s1 with cache := invalidatedCache, setCount := s.setCount + 1 }

/-- A site collection is well formed when its ids and hostnames are
pairwise distinct. -/
def sitesWF (l : List SiteEntry) : Prop :=
  (l.map SiteEntry.id).Nodup ∧ (l.map SiteEntry.hostname).Nodup

/-- A backing store is well formed when its site collection is. -/
def storeWF (st : AreaStore) : Prop := sitesWF (st.sites.getD [])

/-- The cache is well formed when any cached site array is. -/
def cacheWF (c : CacheState) : Prop := ∀ l, c.sitesCache = some l → sitesWF l

/-- Well-formedness of the whole module state. -/
def stateWF (s : MachineState) : Prop :=
  storeWF s.syncStore ∧ storeWF s.localStore ∧ cacheWF s.cache

/-- One step of the storage module: any exported operation, at any time,
on either area.  The `addSite` step carries the assumption that the
randomized `generateId()` result does not collide with an id in the
collection the operation reads, which is the intent of that helper. -/
inductive Step : MachineState → MachineState → Prop
  | getSites (area : StorageArea) (now : Int) (s : MachineState) :
      Step s (getSitesOp area now s).2
  | getSiteById (id : String) (area : StorageArea) (now : Int) (s : MachineState) :
      Step s (getSiteByIdOp id area now s).2
  | getSiteByUrl (url : String) (area : StorageArea) (now : Int) (s : MachineState) :
      Step s (getSiteByUrlOp url area now s).2
  | addSite (input : AddSiteInput) (freshId : String) (area : StorageArea)
      (now : Int) (s : MachineState)
      (hfresh : ∀ site ∈ (getSitesOp area now s).1, site.id ≠ freshId) :
      Step s (addSiteOp input freshId area now s).2
  | updateStatus (id : String) (st : StatusType) (v : Bool) (area : StorageArea)
      (now : Int) (s : MachineState) :
      Step s (updateStatusOp id st v area now s).2
  | updateSite (id : String) (u : UpdateSiteInput) (area : StorageArea)
      (now : Int) (s : MachineState) :
      Step s (updateSiteOp id u area now s).2
  | deleteSite (id : String) (area : StorageArea) (now : Int) (s : MachineState) :
      Step s (deleteSiteOp id area now s).2
  | getSettings (area : StorageArea) (now : Int) (s : MachineState) :
      Step s (getSettingsOp area now s).2
  | updateSettings (u : PartialSettings) (area : StorageArea) (now : Int)
      (s : MachineState) :
      Step s (updateSettingsOp u area now s).2
  | resetDailyStatus (area : StorageArea) (now : Int) (s : MachineState) :
      Step s (resetDailyStatusOp area now s).2
  | getPendingCount (area : StorageArea) (now : Int) (s : MachineState) :
      Step s (getPendingCountOp area now s).2
  | clearAllData (area : StorageArea) (s : MachineState) :
      Step s (clearAllDataOp area s)

/-- States reachable from the pristine module state by the storage
operations. -/
def Reachable (s : MachineState) : Prop :=
  Relation.ReflTransGen Step initialState s

/-- Substring containment, stated on the character data. -/
def strContains (hay needle : String) : Prop :=
  ∃ a b : List Char, hay.data = a ++ needle.data ++ b

/-- Fixture: a site whose last visit happened at timestamp 0. -/
def exSiteVisitedAtZero : SiteEntry :=
  { id := "s1", title := "S", url := "https://s.example/", hostname := "s.example"
    favicon := "", visitedStatus := false, checkedInStatus := false
    lastVisitedAt := some 0, lastCheckedInAt := none, checkInHistory := []
    frequency := CheckInFrequency.daily, autoDetect := true, reminderEnabled := true
    createdAt := 0, updatedAt := 0 }

/-- Fixture: sync area holding the visited-at-zero site, empty cache. -/
def exStateVisited : MachineState :=
  { syncStore := { sites := some [exSiteVisitedAtZero] } }

/-- Fixture: a site stored in the sync area. -/
def exSiteSync : SiteEntry :=
  { exSiteVisitedAtZero with
    id := "sync1", title := "SyncSite", url := "https://sync.example/a"
    hostname := "sync.example", lastVisitedAt := none }

/-- Fixture: a different site stored in the local area. -/
def exSiteLocal : SiteEntry :=
  { exSiteVisitedAtZero with
    id := "local1", title := "LocalSite", url := "https://local.example/a"
    hostname := "local.example", lastVisitedAt := none }

/-- Fixture: both areas populated with distinct data, empty cache. -/
def exStateTwoAreas : MachineState :=
  { syncStore := { sites := some [exSiteSync] }
    localStore := { sites := some [exSiteLocal] } }

/-- Successful payload of an operation result, if any. -/
def resultOk {α : Type} : Except String α → Option α
  | Except.ok a => some a
  | Except.error _ => none

/-- Append-only relation between history values: the new value extends
the old one by a (possibly empty) suffix. -/
def historyExtends (old new : List CheckInRecord) : Prop :=
  ∃ suffix, new = old ++ suffix

/-- Fixture trace: add a site whose URL is the unparseable empty string
(its derived hostname is the raw empty string). -/
def exTraceA : MachineState :=
  (addSiteOp { title := "A", url := "" } "a1" StorageArea.sync 0 initialState).2

/-- Fixture trace: additionally add a well-formed site with hostname
b.com. -/
def exTraceB : MachineState :=
  (addSiteOp { title := "B", url := "https://b.com/" } "b1" StorageArea.sync 1 exTraceA).2

/-- Fixture trace: additionally mark the b.com site visited, giving it
one history record. -/
def exTraceC : MachineState :=
  (updateStatusOp "b1" StatusType.visited true StorageArea.sync 3 exTraceB).2

/-- Fixture trace: a site with hostname dup.com added to the local
area. -/
def exTraceL1 : MachineState :=
  (addSiteOp { title := "L", url := "https://dup.com/a" } "id1" StorageArea.local 0
    initialState).2

/-- Fixture trace: additionally a sync-area read at t=10, which
populates the shared cache with the sync collection. -/
def exTraceL2 : MachineState :=
  (getSitesOp StorageArea.sync 10 exTraceL1).2

/-- String concatenation acts as concatenation on character data. -/
theorem string_data_append (x y : String) : (x ++ y).data = x.data ++ y.data := rfl

/-- The not-found error message contains the words "not found". -/
theorem strContains_notFound (id : String) :
    strContains ("Site with id \"" ++ id ++ "\" not found") "not found" := by
  refine ⟨("Site with id \"" ++ id ++ "\" ").data, [], ?_⟩
  simp [string_data_append, List.append_assoc]

/-- The duplicate error message contains the words "already exists". -/
theorem strContains_alreadyExists (h : String) :
    strContains ("Site with hostname \"" ++ h ++ "\" already exists") "already exists" := by
  refine ⟨("Site with hostname \"" ++ h ++ "\" ").data, [], ?_⟩
  simp [string_data_append, List.append_assoc]

/-- Splitting at the first match reconstructs the list, and the found
element satisfies the predicate. -/
theorem findSplit_eq {α : Type} {p : α → Bool} {l pre post : List α} {x : α}
    (h : findSplit p l = some (pre, x, post)) :
    l = pre ++ x :: post ∧ p x = true := by
  induction l generalizing pre with
  | nil => simp [findSplit] at h
  | cons a as ih =>
      by_cases hp : p a
      · simp [findSplit, hp] at h
        obtain ⟨h1, h2, h3⟩ := h
        subst h1; subst h2; subst h3
        exact ⟨rfl, hp⟩
      · simp only [findSplit, hp, if_neg, Bool.false_eq_true, not_false_iff] at h
        cases hfs : findSplit p as with
        | none => rw [hfs] at h; simp at h
        | some y =>
            obtain ⟨pre1, x1, post1⟩ := y
            rw [hfs] at h
            simp only [Option.map_some', Option.some.injEq, Prod.mk.injEq] at h
            obtain ⟨h1, h2, h3⟩ := h
            subst h2; subst h3
            obtain ⟨hl, hpx⟩ := ih hfs
            subst h1
            rw [hl]
            exact ⟨rfl, hpx⟩

/-- A list containing a match splits at some first match. -/
theorem findSplit_isSome_of_mem {α : Type} {p : α → Bool} {l : List α} {x : α}
    (hx : x ∈ l) (hp : p x = true) : (findSplit p l).isSome := by
  induction l with
  | nil => cases hx
  | cons a as ih =>
      by_cases ha : p a
      · simp [findSplit, ha]
      · have hxas : x ∈ as := by
          rcases List.mem_cons.mp hx with h | h
          · exact absurd (h ▸ hp) (by simpa using ha)
          · exact h
        have hsome := ih hxas
        simp only [findSplit, ha, if_neg, Bool.false_eq_true, not_false_iff]
        cases hfs : findSplit p as with
        | none => rw [hfs] at hsome; simp at hsome
        | some y => simp

/-- Status derivation keeps the id. -/
theorem deriveSite_id (now : Int) (site : SiteEntry) :
    (deriveSite now site).id = site.id := rfl

/-- Status derivation keeps the hostname. -/
theorem deriveSite_hostname (now : Int) (site : SiteEntry) :
    (deriveSite now site).hostname = site.hostname := rfl

/-- Ids of a derived collection are those of the raw collection. -/
theorem map_id_deriveList (now : Int) (l : List SiteEntry) :
    (l.map (deriveSite now)).map SiteEntry.id = l.map SiteEntry.id := by
  induction l with
  | nil => rfl
  | cons a as ih => simp [ih, deriveSite]

/-- Hostnames of a derived collection are those of the raw collection. -/
theorem map_hostname_deriveList (now : Int) (l : List SiteEntry) :
    (l.map (deriveSite now)).map SiteEntry.hostname = l.map SiteEntry.hostname := by
  induction l with
  | nil => rfl
  | cons a as ih => simp [ih, deriveSite]

/-- The empty collection is well formed. -/
theorem sitesWF_nil : sitesWF [] := ⟨List.nodup_nil, List.nodup_nil⟩

/-- Status derivation preserves well-formedness. -/
theorem sitesWF_derive {l : List SiteEntry} (h : sitesWF l) (now : Int) :
    sitesWF (l.map (deriveSite now)) := by
  refine ⟨?_, ?_⟩
  · rw [map_id_deriveList]; exact h.1
  · rw [map_hostname_deriveList]; exact h.2

/-- Replacing the matched element with one of equal id and hostname
preserves well-formedness. -/
theorem sitesWF_middle_congr {pre post : List SiteEntry} {x u : SiteEntry}
    (hid : u.id = x.id) (hhost : u.hostname = x.hostname)
    (h : sitesWF (pre ++ x :: post)) : sitesWF (pre ++ u :: post) := by
  refine ⟨?_, ?_⟩
  · have he : (pre ++ u :: post).map SiteEntry.id = (pre ++ x :: post).map SiteEntry.id := by
      simp [hid]
    rw [he]; exact h.1
  · have he : (pre ++ u :: post).map SiteEntry.hostname
        = (pre ++ x :: post).map SiteEntry.hostname := by
      simp [hhost]
    rw [he]; exact h.2

/-- Appending a site with fresh id and fresh hostname preserves
well-formedness. -/
theorem sitesWF_append_single {l : List SiteEntry} {x : SiteEntry} (h : sitesWF l)
    (hid : ∀ t ∈ l, t.id ≠ x.id) (hhost : ∀ t ∈ l, t.hostname ≠ x.hostname) :
    sitesWF (l ++ [x]) := by
  refine ⟨?_, ?_⟩
  · rw [List.map_append]
    rw [List.nodup_append]
    refine ⟨h.1, List.nodup_singleton _, ?_⟩
    intro v hv hx
    obtain ⟨t, ht, hteq⟩ := List.mem_map.mp hv
    simp only [List.map_cons, List.map_nil, List.mem_singleton] at hx
    exact hid t ht (hteq.symm ▸ hx)
  · rw [List.map_append]
    rw [List.nodup_append]
    refine ⟨h.2, List.nodup_singleton _, ?_⟩
    intro v hv hx
    obtain ⟨t, ht, hteq⟩ := List.mem_map.mp hv
    simp only [List.map_cons, List.map_nil, List.mem_singleton] at hx
    exact hhost t ht (hteq.symm ▸ hx)

/-- Removing the matched element preserves well-formedness. -/
theorem sitesWF_remove_middle {pre post : List SiteEntry} {x : SiteEntry}
    (h : sitesWF (pre ++ x :: post)) : sitesWF (pre ++ post) := by
  have hsub : List.Sublist (pre ++ post) (pre ++ x :: post) :=
    List.Sublist.append_left (List.sublist_cons_self x post) pre
  exact ⟨h.1.sublist (hsub.map _), h.2.sublist (hsub.map _)⟩

/-- In a well-formed collection, the other elements carry an id
different from the matched element. -/
theorem id_ne_of_middle {pre post : List SiteEntry} {x : SiteEntry}
    (h : sitesWF (pre ++ x :: post)) : ∀ t ∈ pre ++ post, t.id ≠ x.id := by
  intro t ht heq
  have h1 := h.1
  rw [List.map_append, List.map_cons] at h1
  have h2 := (List.nodup_middle.mp h1)
  have h3 : x.id ∉ pre.map SiteEntry.id ++ post.map SiteEntry.id :=
    (List.nodup_cons.mp h2).1
  apply h3
  rw [← List.map_append]
  exact heq ▸ List.mem_map_of_mem SiteEntry.id ht

/-- Inserting a replacement whose hostname is owned by no other element
preserves well-formedness. -/
theorem sitesWF_middle_newhost {pre post : List SiteEntry} {x u : SiteEntry}
    (h : sitesWF (pre ++ x :: post)) (hid : u.id = x.id)
    (hhost : ∀ t ∈ pre ++ post, t.hostname ≠ u.hostname) :
    sitesWF (pre ++ u :: post) := by
  refine ⟨?_, ?_⟩
  · have he : (pre ++ u :: post).map SiteEntry.id = (pre ++ x :: post).map SiteEntry.id := by
      simp [hid]
    rw [he]; exact h.1
  · rw [List.map_append, List.map_cons]
    rw [List.nodup_middle]
    rw [List.nodup_cons]
    refine ⟨?_, ?_⟩
    · intro hmem
      rw [← List.map_append] at hmem
      obtain ⟨t, ht, hteq⟩ := List.mem_map.mp hmem
      exact hhost t ht hteq
    · rw [← List.map_append]
      exact (sitesWF_remove_middle h).2

/-- A valid cache hit returns the cached array and leaves the state
untouched. -/
theorem getSitesOp_hit {s : MachineState} {c : List SiteEntry} {now : Int}
    (hc : s.cache.sitesCache = some c) (hv : isCacheValid now s.cache = true)
    (area : StorageArea) : getSitesOp area now s = (c, s) := by
  unfold getSitesOp
  rw [hc, hv]
  simp

/-- An empty or expired cache makes `getSites` read through. -/
theorem getSitesOp_miss {s : MachineState} {now : Int}
    (h : s.cache.sitesCache = none ∨ isCacheValid now s.cache = false)
    (area : StorageArea) : getSitesOp area now s = readSites area now s := by
  unfold getSitesOp
  rcases hc : s.cache.sitesCache with _ | c
  · rfl
  · rcases h with h | h
    · rw [hc] at h; cases h
    · rw [h]; simp

/-- `getSites` never touches the backing stores or the write counter. -/
theorem getSitesOp_stores (area : StorageArea) (now : Int) (s : MachineState) :
    (getSitesOp area now s).2.syncStore = s.syncStore
    ∧ (getSitesOp area now s).2.localStore = s.localStore
    ∧ (getSitesOp area now s).2.setCount = s.setCount := by
  unfold getSitesOp readSites
  rcases s.cache.sitesCache with _ | c
  · exact ⟨rfl, rfl, rfl⟩
  · by_cases hv : isCacheValid now s.cache
    · rw [hv]; simp
    · simp only [hv]; simp

/-- The read-through branch returns the derived stored collection and
caches it. -/
theorem readSites_result (area : StorageArea) (now : Int) (s : MachineState) :
    (readSites area now s).1 = ((storeOf area s).sites.getD []).map (deriveSite now)
    ∧ (readSites area now s).2.cache.sitesCache = some ((readSites area now s).1)
    ∧ (readSites area now s).2.cache.cacheTimestamp = now
    ∧ (readSites area now s).2.getCount = s.getCount + 1 := by
  exact ⟨rfl, rfl, rfl, rfl⟩

/-- `getSites` preserves well-formedness and returns a well-formed
collection. -/
theorem getSitesOp_wf {s : MachineState} (h : stateWF s) (area : StorageArea)
    (now : Int) :
    sitesWF (getSitesOp area now s).1 ∧ stateWF (getSitesOp area now s).2 := by
  unfold getSitesOp
  rcases hc : s.cache.sitesCache with _ | c
  · have hwf : sitesWF ((storeOf area s).sites.getD []) := by
      cases area
      · exact h.1
      · exact h.2.1
    refine ⟨sitesWF_derive hwf now, h.1, h.2.1, ?_⟩
    intro l hl
    simp only [readSites] at hl
    obtain hleq := Option.some.inj hl
    rw [← hleq]
    exact sitesWF_derive hwf now
  · by_cases hv : isCacheValid now s.cache
    · rw [hv]
      simp only [if_true]
      exact ⟨h.2.2 c hc, h⟩
    · simp only [hv, if_false]
      have hwf : sitesWF ((storeOf area s).sites.getD []) := by
        cases area
        · exact h.1
        · exact h.2.1
      refine ⟨sitesWF_derive hwf now, h.1, h.2.1, ?_⟩
      intro l hl
      simp only [readSites] at hl
      obtain hleq := Option.some.inj hl
      rw [← hleq]
      exact sitesWF_derive hwf now

/-- Committing a well-formed collection yields a well-formed state. -/
theorem commitSites_wf {s : MachineState} {l : List SiteEntry} (h : stateWF s)
    (hl : sitesWF l) (area : StorageArea) : stateWF (commitSites area l s) := by
  cases area
  · exact ⟨hl, h.2.1, fun c hc => by simp [commitSites, invalidatedCache] at hc⟩
  · exact ⟨h.1, hl, fun c hc => by simp [commitSites, invalidatedCache] at hc⟩

/-- Committing writes the collection to the selected area. -/
theorem commitSites_store (area : StorageArea) (l : List SiteEntry) (s : MachineState) :
    (storeOf area (commitSites area l s)).sites = some l := by
  cases area <;> rfl

/-- Committing invalidates the cache. -/
theorem commitSites_cache (area : StorageArea) (l : List SiteEntry) (s : MachineState) :
    (commitSites area l s).cache = invalidatedCache := by
  cases area <;> rfl

/-- Committing settings invalidates the cache. -/
theorem commitSettings_cache (area : StorageArea) (x : ReminderSettings) (s : MachineState) :
    (commitSettings area x s).cache = invalidatedCache := by
  cases area <;> rfl

/-- Committing settings leaves site collections untouched. -/
theorem commitSettings_sites (area : StorageArea) (x : ReminderSettings) (s : MachineState) :
    (commitSettings area x s).syncStore.sites = s.syncStore.sites
    ∧ (commitSettings area x s).localStore.sites = s.localStore.sites := by
  cases area <;> exact ⟨rfl, rfl⟩

/-- Settings reads leave everything but the settings cache untouched. -/
theorem getSettingsOp_frame (area : StorageArea) (now : Int) (s : MachineState) :
    (getSettingsOp area now s).2.syncStore = s.syncStore
    ∧ (getSettingsOp area now s).2.localStore = s.localStore
    ∧ (getSettingsOp area now s).2.cache.sitesCache = s.cache.sitesCache
    ∧ (getSettingsOp area now s).2.setCount = s.setCount := by
  unfold getSettingsOp readSettings
  rcases s.cache.settingsCache with _ | c
  · exact ⟨rfl, rfl, rfl, rfl⟩
  · by_cases hv : isCacheValid now s.cache
    · rw [hv]; simp
    · simp only [hv]; simp

/-- The full-object merge collapses against the defaults. -/
theorem mergeSettings_toPartial (d x : ReminderSettings) :
    mergeSettings d (toPartialSettings x) = x := rfl

/-- Unfolding of `addSiteOp` over the projections of its initial read. -/
theorem addSiteOp_eq (input : AddSiteInput) (freshId : String) (area : StorageArea)
    (now : Int) (s : MachineState) :
    addSiteOp input freshId area now s =
      match (getSitesOp area now s).1.find?
          (fun site => site.hostname == extractHostname input.url) with
      | some _ =>
          (Except.error ("Site with hostname \"" ++ extractHostname input.url
              ++ "\" already exists"), (getSitesOp area now s).2)
      | none =>
          (Except.ok (newSiteEntry input freshId (extractHostname input.url) now),
            commitSites area ((getSitesOp area now s).1
                ++ [newSiteEntry input freshId (extractHostname input.url) now])
              (getSitesOp area now s).2) := rfl

/-- Unfolding of `updateStatusOp` over the projections of its initial
read. -/
theorem updateStatusOp_eq (id : String) (st : StatusType) (v : Bool)
    (area : StorageArea) (now : Int) (s : MachineState) :
    updateStatusOp id st v area now s =
      match findSplit (fun site => site.id == id) (getSitesOp area now s).1 with
      | none =>
          (Except.error ("Site with id \"" ++ id ++ "\" not found"),
            (getSitesOp area now s).2)
      | some (pre, site, post) =>
          (Except.ok (updateStatusSite st v now site),
            commitSites area (pre ++ updateStatusSite st v now site :: post)
              (getSitesOp area now s).2) := rfl

/-- Unfolding of `updateSiteOp` over the projections of its initial
read. -/
theorem updateSiteOp_eq (id : String) (u : UpdateSiteInput) (area : StorageArea)
    (now : Int) (s : MachineState) :
    updateSiteOp id u area now s =
      match findSplit (fun site => site.id == id) (getSitesOp area now s).1 with
      | none =>
          (Except.error ("Site with id \"" ++ id ++ "\" not found"),
            (getSitesOp area now s).2)
      | some (pre, site, post) =>
          if urlTruthy u
              && (getSitesOp area now s).1.any (fun t =>
                t.hostname == (if urlTruthy u then extractHostname (u.url.getD "")
                  else site.hostname) && t.id != id) then
            (Except.error ("Site with hostname \""
                ++ (if urlTruthy u then extractHostname (u.url.getD "") else site.hostname)
                ++ "\" already exists"), (getSitesOp area now s).2)
          else
            (Except.ok (mergeSite site u
                (if urlTruthy u then extractHostname (u.url.getD "") else site.hostname) now),
              commitSites area (pre ++ mergeSite site u
                  (if urlTruthy u then extractHostname (u.url.getD "") else site.hostname) now
                  :: post)
                (getSitesOp area now s).2) := rfl

/-- Unfolding of `deleteSiteOp` over the projections of its initial
read. -/
theorem deleteSiteOp_eq (id : String) (area : StorageArea) (now : Int)
    (s : MachineState) :
    deleteSiteOp id area now s =
      match findSplit (fun site => site.id == id) (getSitesOp area now s).1 with
      | none =>
          (Except.error ("Site with id \"" ++ id ++ "\" not found"),
            (getSitesOp area now s).2)
      | some (pre, _, post) =>
          (Except.ok true, commitSites area (pre ++ post) (getSitesOp area now s).2) := rfl

/-- Unfolding of `resetDailyStatusOp`. -/
theorem resetDailyStatusOp_eq (area : StorageArea) (now : Int) (s : MachineState) :
    resetDailyStatusOp area now s =
      ((getSitesOp area now s).1.map (fun site =>
          { site with visitedStatus := false, checkedInStatus := false }),
        commitSites area ((getSitesOp area now s).1.map (fun site =>
          { site with visitedStatus := false, checkedInStatus := false }))
          (getSitesOp area now s).2) := rfl

/-- Unfolding of `updateSettingsOp`. -/
theorem updateSettingsOp_eq (u : PartialSettings) (area : StorageArea) (now : Int)
    (s : MachineState) :
    updateSettingsOp u area now s =
      (mergeSettings (getSettingsOp area now s).1 u,
        commitSettings area (mergeSettings (getSettingsOp area now s).1 u)
          (getSettingsOp area now s).2) := rfl

/-- The duplicate branch of `addSite`. -/
theorem addSiteOp_dup {input : AddSiteInput} {area : StorageArea}
    {now : Int} {s : MachineState} {x : SiteEntry} (freshId : String)
    (hfind : (getSitesOp area now s).1.find?
      (fun site => site.hostname == extractHostname input.url) = some x) :
    addSiteOp input freshId area now s =
      (Except.error ("Site with hostname \"" ++ extractHostname input.url
          ++ "\" already exists"), (getSitesOp area now s).2) := by
  rw [addSiteOp_eq, hfind]

/-- The success branch of `addSite`. -/
theorem addSiteOp_fresh {input : AddSiteInput} {area : StorageArea}
    {now : Int} {s : MachineState} (freshId : String)
    (hfind : (getSitesOp area now s).1.find?
      (fun site => site.hostname == extractHostname input.url) = none) :
    addSiteOp input freshId area now s =
      (Except.ok (newSiteEntry input freshId (extractHostname input.url) now),
        commitSites area ((getSitesOp area now s).1
            ++ [newSiteEntry input freshId (extractHostname input.url) now])
          (getSitesOp area now s).2) := by
  rw [addSiteOp_eq, hfind]

/-- The not-found branch of `updateStatus`. -/
theorem updateStatusOp_notFound {id : String} {area : StorageArea} {now : Int}
    {s : MachineState} (st : StatusType) (v : Bool)
    (hfs : findSplit (fun site => site.id == id) (getSitesOp area now s).1 = none) :
    updateStatusOp id st v area now s =
      (Except.error ("Site with id \"" ++ id ++ "\" not found"),
        (getSitesOp area now s).2) := by
  rw [updateStatusOp_eq, hfs]

/-- The found branch of `updateStatus`. -/
theorem updateStatusOp_found {id : String} {area : StorageArea} {now : Int}
    {s : MachineState} {pre post : List SiteEntry} {site : SiteEntry}
    (st : StatusType) (v : Bool)
    (hfs : findSplit (fun t => t.id == id) (getSitesOp area now s).1
      = some (pre, site, post)) :
    updateStatusOp id st v area now s =
      (Except.ok (updateStatusSite st v now site),
        commitSites area (pre ++ updateStatusSite st v now site :: post)
          (getSitesOp area now s).2) := by
  rw [updateStatusOp_eq, hfs]

/-- The not-found branch of `updateSite`. -/
theorem updateSiteOp_notFound {id : String} {area : StorageArea} {now : Int}
    {s : MachineState} (u : UpdateSiteInput)
    (hfs : findSplit (fun site => site.id == id) (getSitesOp area now s).1 = none) :
    updateSiteOp id u area now s =
      (Except.error ("Site with id \"" ++ id ++ "\" not found"),
        (getSitesOp area now s).2) := by
  rw [updateSiteOp_eq, hfs]

/-- The found branch of `updateSite`, before the duplicate decision. -/
theorem updateSiteOp_found {id : String} {area : StorageArea} {now : Int}
    {s : MachineState} {pre post : List SiteEntry} {site : SiteEntry}
    (u : UpdateSiteInput)
    (hfs : findSplit (fun t => t.id == id) (getSitesOp area now s).1
      = some (pre, site, post)) :
    updateSiteOp id u area now s =
      if (urlTruthy u
          && (getSitesOp area now s).1.any (fun t =>
            t.hostname == (if urlTruthy u then extractHostname (u.url.getD "")
              else site.hostname) && t.id != id)) = true then
        (Except.error ("Site with hostname \""
            ++ (if urlTruthy u then extractHostname (u.url.getD "") else site.hostname)
            ++ "\" already exists"), (getSitesOp area now s).2)
      else
        (Except.ok (mergeSite site u
            (if urlTruthy u then extractHostname (u.url.getD "") else site.hostname) now),
          commitSites area (pre ++ mergeSite site u
              (if urlTruthy u then extractHostname (u.url.getD "") else site.hostname) now
              :: post)
            (getSitesOp area now s).2) := by
  rw [updateSiteOp_eq, hfs]

/-- The not-found branch of `deleteSite`. -/
theorem deleteSiteOp_notFound {id : String} {area : StorageArea} {now : Int}
    {s : MachineState}
    (hfs : findSplit (fun site => site.id == id) (getSitesOp area now s).1 = none) :
    deleteSiteOp id area now s =
      (Except.error ("Site with id \"" ++ id ++ "\" not found"),
        (getSitesOp area now s).2) := by
  rw [deleteSiteOp_eq, hfs]

/-- The found branch of `deleteSite`. -/
theorem deleteSiteOp_found {id : String} {area : StorageArea} {now : Int}
    {s : MachineState} {pre post : List SiteEntry} {site : SiteEntry}
    (hfs : findSplit (fun t => t.id == id) (getSitesOp area now s).1
      = some (pre, site, post)) :
    deleteSiteOp id area now s =
      (Except.ok true, commitSites area (pre ++ post) (getSitesOp area now s).2) := by
  rw [deleteSiteOp_eq, hfs]

/-- The pristine state is well formed. -/
theorem stateWF_initial : stateWF initialState := by
  refine ⟨sitesWF_nil, sitesWF_nil, ?_⟩
  intro l hl
  cases hl

/-- Every storage operation preserves well-formedness of the stores and
the cache. -/
theorem Step_wf {s t : MachineState} (hst : Step s t) (h : stateWF s) : stateWF t := by
  cases hst with
  | getSites area now s => exact (getSitesOp_wf h area now).2
  | getSiteById id area now s => exact (getSitesOp_wf h area now).2
  | getSiteByUrl url area now s => exact (getSitesOp_wf h area now).2
  | getPendingCount area now s => exact (getSitesOp_wf h area now).2
  | addSite input freshId area now s hfresh =>
      obtain ⟨hwf1, hwf2⟩ := getSitesOp_wf h area now
      rw [addSiteOp_eq]
      cases hfind : (getSitesOp area now s).1.find?
          (fun site => site.hostname == extractHostname input.url) with
      | some x => exact hwf2
      | none =>
          apply commitSites_wf hwf2
          apply sitesWF_append_single hwf1
          · intro x hx
            exact hfresh x hx
          · intro x hx heq
            have hnone := List.find?_eq_none.mp hfind x hx
            simp only [beq_iff_eq] at hnone
            exact hnone heq
  | updateStatus id st v area now s =>
      obtain ⟨hwf1, hwf2⟩ := getSitesOp_wf h area now
      rw [updateStatusOp_eq]
      cases hfs : findSplit (fun site => site.id == id) (getSitesOp area now s).1 with
      | none => exact hwf2
      | some y =>
          obtain ⟨pre, site, post⟩ := y
          apply commitSites_wf hwf2
          obtain ⟨hleq, _⟩ := findSplit_eq hfs
          rw [hleq] at hwf1
          apply sitesWF_middle_congr ?_ ?_ hwf1
          · cases st <;> cases v <;> rfl
          · cases st <;> cases v <;> rfl
  | updateSite id u area now s =>
      obtain ⟨hwf1, hwf2⟩ := getSitesOp_wf h area now
      rw [updateSiteOp_eq]
      cases hfs : findSplit (fun site => site.id == id) (getSitesOp area now s).1 with
      | none => exact hwf2
      | some y =>
          obtain ⟨pre, site, post⟩ := y
          obtain ⟨hleq, hpid⟩ := findSplit_eq hfs
          simp only [beq_iff_eq] at hpid
          by_cases htr : urlTruthy u = true
          · rw [htr]
            simp only [Bool.true_and, if_true]
            cases hany : (getSitesOp area now s).1.any (fun t =>
                t.hostname == extractHostname (u.url.getD "") && t.id != id) with
            | true => simp only [hany, if_true]; exact hwf2
            | false =>
                simp only [hany, if_false, Bool.false_eq_true]
                apply commitSites_wf hwf2
                rw [hleq] at hwf1
                refine sitesWF_middle_newhost hwf1 rfl ?_
                intro x hx heq
                have hxall : x ∈ pre ++ site :: post := by
                  rcases List.mem_append.mp hx with hx1 | hx1
                  · exact List.mem_append.mpr (Or.inl hx1)
                  · exact List.mem_append.mpr (Or.inr (List.mem_cons_of_mem _ hx1))
                have hxne : x.id ≠ site.id := id_ne_of_middle hwf1 x hx
                have hfalse : ¬ (x.hostname == extractHostname (u.url.getD "")
                    && x.id != id) = true := by
                  intro hcontra
                  rw [← hleq] at hxall
                  have hx2 : ((getSitesOp area now s).1.any (fun t =>
                      t.hostname == extractHostname (u.url.getD "") && t.id != id)) = true :=
                    List.any_eq_true.mpr ⟨x, hxall, hcontra⟩
                  rw [hany] at hx2
                  cases hx2
                apply hfalse
                simp only [Bool.and_eq_true, beq_iff_eq, bne_iff_ne, ne_eq]
                constructor
                · simpa [mergeSite] using heq
                · rw [hpid] at hxne; exact hxne
          · simp only [eq_false_of_ne_true htr, Bool.false_and, if_false, Bool.false_eq_true]
            apply commitSites_wf hwf2
            rw [hleq] at hwf1
            apply sitesWF_middle_congr ?_ ?_ hwf1
            · rfl
            · simp [eq_false_of_ne_true htr, mergeSite]
  | deleteSite id area now s =>
      obtain ⟨hwf1, hwf2⟩ := getSitesOp_wf h area now
      rw [deleteSiteOp_eq]
      cases hfs : findSplit (fun site => site.id == id) (getSitesOp area now s).1 with
      | none => exact hwf2
      | some y =>
          obtain ⟨pre, site, post⟩ := y
          apply commitSites_wf hwf2
          obtain ⟨hleq, _⟩ := findSplit_eq hfs
          rw [hleq] at hwf1
          exact sitesWF_remove_middle hwf1
  | getSettings area now s =>
      obtain ⟨h1, h2, h3, _⟩ := getSettingsOp_frame area now s
      refine ⟨h1 ▸ h.1, h2 ▸ h.2.1, ?_⟩
      intro l hl
      rw [h3] at hl
      exact h.2.2 l hl
  | updateSettings u area now s =>
      rw [updateSettingsOp_eq]
      obtain ⟨h1, h2, h3, _⟩ := getSettingsOp_frame area now s
      obtain ⟨hs1, hs2⟩ := commitSettings_sites area
        (mergeSettings (getSettingsOp area now s).1 u) (getSettingsOp area now s).2
      refine ⟨?_, ?_, ?_⟩
      · unfold storeWF
        rw [hs1, h1]
        exact h.1
      · unfold storeWF
        rw [hs2, h2]
        exact h.2.1
      · intro l hl
        rw [commitSettings_cache] at hl
        cases hl
  | resetDailyStatus area now s =>
      obtain ⟨hwf1, hwf2⟩ := getSitesOp_wf h area now
      rw [resetDailyStatusOp_eq]
      apply commitSites_wf hwf2
      refine ⟨?_, ?_⟩
      · have he : ((getSitesOp area now s).1.map (fun site =>
            { site with visitedStatus := false, checkedInStatus := false })).map SiteEntry.id
            = (getSitesOp area now s).1.map SiteEntry.id := by
          rw [List.map_map]; rfl
        rw [he]; exact hwf1.1
      · have he : ((getSitesOp area now s).1.map (fun site =>
            { site with visitedStatus := false, checkedInStatus := false })).map
              SiteEntry.hostname
            = (getSitesOp area now s).1.map SiteEntry.hostname := by
          rw [List.map_map]; rfl
        rw [he]; exact hwf1.2
  | clearAllData area s =>
      cases area
      · exact ⟨sitesWF_nil, h.2.1, fun l hl => by cases hl⟩
      · exact ⟨h.1, sitesWF_nil, fun l hl => by cases hl⟩

/-- Well-formedness holds in every reachable state. -/
theorem Reachable_wf {s : MachineState} (h : Reachable s) : stateWF s := by
  induction h with
  | refl => exact stateWF_initial
  | tail _ hstep ih => exact Step_wf hstep ih

/-- A list with no match does not split. -/
theorem findSplit_eq_none {α : Type} {p : α → Bool} {l : List α}
    (h : ∀ x ∈ l, p x = false) : findSplit p l = none := by
  induction l with
  | nil => rfl
  | cons a as ih =>
      have ha : p a = false := h a (List.mem_cons_self a as)
      simp only [findSplit, ha, Bool.false_eq_true, if_false]
      rw [ih (fun x hx => h x (List.mem_cons_of_mem a hx))]
      rfl

/-- An empty or expired cache makes `getSettings` read through. -/
theorem getSettingsOp_miss {s : MachineState} (now : Int)
    (h : s.cache.settingsCache = none ∨ isCacheValid now s.cache = false)
    (area : StorageArea) : getSettingsOp area now s = readSettings area now s := by
  unfold getSettingsOp
  rcases hc : s.cache.settingsCache with _ | c
  · rfl
  · rcases h with h | h
    · rw [hc] at h; cases h
    · rw [h]; simp

/-- C10: when a URL string cannot be parsed, the derived hostname is the
raw input string itself; `addSite` and `updateSite` never fail on a
malformed URL per se (a failure of `addSite` always comes from a
hostname collision, and a found, collision-free `updateSite` with any
truthy URL succeeds); two equal invalid strings collide as duplicate
hostnames, and `getSiteByUrl` with an unparseable string matches exactly
a site whose hostname equals that raw string. -/
theorem C10_malformed_url_hostname :
    (∀ url, parseURLHostname url = none → extractHostname url = url)
    ∧ (∀ (input : AddSiteInput) freshId area now s e,
        (addSiteOp input freshId area now s).1 = Except.error e →
        ∃ site ∈ (getSitesOp area now s).1, site.hostname = extractHostname input.url)
    ∧ (∀ (input : AddSiteInput) freshId area now s,
        (∃ site ∈ (getSitesOp area now s).1, site.hostname = extractHostname input.url) →
        (addSiteOp input freshId area now s).1
          = Except.error ("Site with hostname \"" ++ extractHostname input.url
              ++ "\" already exists"))
    ∧ (∀ id (u : UpdateSiteInput) area now s pre site post,
        findSplit (fun t => t.id == id) (getSitesOp area now s).1 = some (pre, site, post) →
        ((getSitesOp area now s).1.any (fun t =>
          t.hostname == (if urlTruthy u then extractHostname (u.url.getD "")
            else site.hostname) && t.id != id)) = false →
        resultOk (updateSiteOp id u area now s).1
          = some (mergeSite site u
              (if urlTruthy u then extractHostname (u.url.getD "") else site.hostname) now))
    ∧ (∀ url area now s, parseURLHostname url = none →
        (getSiteByUrlOp url area now s).1
          = (getSitesOp area now s).1.find? (fun site => site.hostname == url)) := by
  refine ⟨?_, ?_, ?_, ?_, ?_⟩
  · intro url hp
    unfold extractHostname
    rw [hp]
    rfl
  · intro input freshId area now s e herr
    rw [addSiteOp_eq] at herr
    cases hfind : (getSitesOp area now s).1.find?
        (fun site => site.hostname == extractHostname input.url) with
    | none => rw [hfind] at herr; cases herr
    | some x =>
        refine ⟨x, List.mem_of_find?_eq_some hfind, ?_⟩
        have := List.find?_some hfind
        simpa using this
  · intro input freshId area now s hex
    obtain ⟨site, hmem, hhn⟩ := hex
    rw [addSiteOp_eq]
    cases hfind : (getSitesOp area now s).1.find?
        (fun t => t.hostname == extractHostname input.url) with
    | none =>
        have := List.find?_eq_none.mp hfind site hmem
        simp only [beq_iff_eq] at this
        exact absurd hhn this
    | some x => rfl
  · intro id u area now s pre site post hfs hany
    rw [updateSiteOp_eq, hfs]
    by_cases htr : urlTruthy u = true
    · simp only [htr, if_true] at hany
      simp only [htr, Bool.true_and, if_true, hany, Bool.false_eq_true, if_false]
      rfl
    · have htr' : urlTruthy u = false := eq_false_of_ne_true htr
      simp only [htr', Bool.false_and, Bool.false_eq_true, if_false]
      rfl
  · intro url area now s hp
    unfold getSiteByUrlOp
    have he : extractHostname url = url := by
      unfold extractHostname
      rw [hp]
      rfl
    rw [he]

/-- Witness for C10 at concrete inputs: the string "not a url" does not
parse, is its own hostname, a second add of the same raw string is
rejected as a duplicate, and getSiteByUrl finds the entry by the raw
string. -/
theorem C10_witness :
    extractHostname "not a url" = "not a url"
    ∧ (addSiteOp { title := "B", url := "not a url" } "b9" StorageArea.sync 1
        (addSiteOp { title := "A", url := "not a url" } "a9" StorageArea.sync 0
          initialState).2).1
      = Except.error ("Site with hostname \"" ++ extractHostname "not a url"
          ++ "\" already exists") := by
  constructor
  · exact C10_malformed_url_hostname.1 "not a url" (by decide)
  · exact C10_malformed_url_hostname.2.2.1 { title := "B", url := "not a url" } "b9"
      StorageArea.sync 1 _
      ⟨newSiteEntry { title := "A", url := "not a url" } "a9"
          (extractHostname "not a url") 0, by decide, by decide⟩

/-- C2 as stated is false: a getSites call served from the cache within
the TTL can cross a local midnight, returning a record whose
visitedStatus differs from isToday of its lastVisitedAt at the moment of
the call.  Here the cache is populated in the last millisecond of day
zero (status true) and read again 2 ms later, on day one. -/
theorem C2_counterexample :
    ¬ ∀ site ∈ (getSitesOp StorageArea.sync 86400001
        (getSitesOp StorageArea.sync 86399999 exStateVisited).2).1,
      site.visitedStatus = isToday site.lastVisitedAt 86400001
      ∧ site.checkedInStatus = isToday site.lastCheckedInAt 86400001 := by
  decide

/-- C2 (amended): whenever a getSites call misses the cache (empty or
expired) it returns exactly the stored collection with both status
flags recomputed from the timestamps at the moment of the read — the
persisted flags are never returned as-is — and every record a
cache-served call returns carries statuses derived this way at the
(at most 5 s earlier) cache-population moment; getSiteById and
getSiteByUrl inherit the property from getSites. -/
theorem C2_amended_status_derived (area : StorageArea) (now : Int) (s : MachineState)
    (hmiss : s.cache.sitesCache = none ∨ isCacheValid now s.cache = false) :
    (getSitesOp area now s).1 = ((storeOf area s).sites.getD []).map (deriveSite now)
    ∧ (∀ site ∈ (getSitesOp area now s).1,
        site.visitedStatus = isToday site.lastVisitedAt now
        ∧ site.checkedInStatus = isToday site.lastCheckedInAt now)
    ∧ (∀ id site, (getSiteByIdOp id area now s).1 = some site →
        site.visitedStatus = isToday site.lastVisitedAt now
        ∧ site.checkedInStatus = isToday site.lastCheckedInAt now)
    ∧ (∀ url site, (getSiteByUrlOp url area now s).1 = some site →
        site.visitedStatus = isToday site.lastVisitedAt now
        ∧ site.checkedInStatus = isToday site.lastCheckedInAt now) := by
  have hread : getSitesOp area now s = readSites area now s := getSitesOp_miss hmiss area
  have hres : (getSitesOp area now s).1
      = ((storeOf area s).sites.getD []).map (deriveSite now) := by
    rw [hread]; rfl
  have hall : ∀ site ∈ (getSitesOp area now s).1,
      site.visitedStatus = isToday site.lastVisitedAt now
      ∧ site.checkedInStatus = isToday site.lastCheckedInAt now := by
    intro site hsite
    rw [hres] at hsite
    obtain ⟨x, _, hxeq⟩ := List.mem_map.mp hsite
    rw [← hxeq]
    exact ⟨rfl, rfl⟩
  refine ⟨hres, hall, ?_, ?_⟩
  · intro id site hfind
    have hmem : site ∈ (getSitesOp area now s).1 :=
      List.mem_of_find?_eq_some hfind
    exact hall site hmem
  · intro url site hfind
    have hmem : site ∈ (getSitesOp area now s).1 :=
      List.mem_of_find?_eq_some hfind
    exact hall site hmem

/-- Witness for C2 at a concrete input: reading the fixture store with
an empty cache at time 0 derives visitedStatus true from the same-day
timestamp. -/
theorem C2_witness :
    (exStateVisited.cache.sitesCache = none
      ∨ isCacheValid 0 exStateVisited.cache = false)
    ∧ ∀ site ∈ (getSitesOp StorageArea.sync 0 exStateVisited).1,
        site.visitedStatus = isToday site.lastVisitedAt 0
        ∧ site.checkedInStatus = isToday site.lastCheckedInAt 0 :=
  ⟨Or.inl rfl,
    (C2_amended_status_derived StorageArea.sync 0 exStateVisited (Or.inl rfl)).2.1⟩

/-- C3 fails on the code: the memoization cache is keyed by no storage
area, so a getSites call for the local area issued 1 ms after a sync
read returns the array cached from the sync area, not the local data.
This theorem evaluates the code on that failing trace: the second call
returns the sync-derived record and not the derived local collection. -/
theorem C3_cache_ignores_area :
    (getSitesOp StorageArea.local 1 (getSitesOp StorageArea.sync 0 exStateTwoAreas).2).1
      = [deriveSite 0 exSiteSync]
    ∧ (exStateTwoAreas.localStore.sites.getD []).map (deriveSite 1)
      = [deriveSite 1 exSiteLocal]
    ∧ (getSitesOp StorageArea.local 1 (getSitesOp StorageArea.sync 0 exStateTwoAreas).2).1
      ≠ [deriveSite 1 exSiteLocal]
    ∧ (getSitesOp StorageArea.local 1
        (getSitesOp StorageArea.sync 0 exStateTwoAreas).2).2.getCount
      = (getSitesOp StorageArea.sync 0 exStateTwoAreas).2.getCount := by
  refine ⟨by decide, by decide, by decide, by decide⟩

/-- C4 as stated is false: the 5000 ms window runs from the underlying
read that populated the cache, not from the previous call.  In this
trace, calls at t=4999 and t=5001 are 2 ms apart with no intervening
write, yet the first performs no storage read (cache hit from the t=0
population) and the second does perform one (cache expired). -/
theorem C4_counterexample :
    ((5001 : Int) - 4999 < 5000)
    ∧ (getSitesOp StorageArea.sync 4999
        (getSitesOp StorageArea.sync 0 initialState).2).2.getCount
      = (getSitesOp StorageArea.sync 0 initialState).2.getCount
    ∧ (getSitesOp StorageArea.sync 5001
        (getSitesOp StorageArea.sync 4999
          (getSitesOp StorageArea.sync 0 initialState).2).2).2.getCount
      = (getSitesOp StorageArea.sync 4999
          (getSitesOp StorageArea.sync 0 initialState).2).2.getCount + 1 := by
  refine ⟨by decide, by decide, by decide⟩

/-- C4 (amended): a getSites call within 5000 ms of the underlying
storage read that populated the cache returns the cached array with no
further storage read and no state change; a cache-missing call performs
exactly one storage read and re-populates the cache, and a second call
within 5000 ms of it returns the identical value without reading; every
successful mutating operation leaves the cache invalidated, from which
the next getSites or getSettings call reads through to storage. -/
theorem C4_amended_cache (area : StorageArea) (now t2 : Int) (s : MachineState) :
    (∀ c, s.cache.sitesCache = some c → isCacheValid now s.cache = true →
      getSitesOp area now s = (c, s))
    ∧ ((s.cache.sitesCache = none ∨ isCacheValid now s.cache = false) →
        (getSitesOp area now s).2.cache.sitesCache = some ((getSitesOp area now s).1)
        ∧ (getSitesOp area now s).2.cache.cacheTimestamp = now
        ∧ (getSitesOp area now s).2.getCount = s.getCount + 1
        ∧ (t2 - now < 5000 →
            getSitesOp area t2 (getSitesOp area now s).2
              = ((getSitesOp area now s).1, (getSitesOp area now s).2)))
    ∧ (∀ input freshId r, (addSiteOp input freshId area now s).1 = Except.ok r →
        (addSiteOp input freshId area now s).2.cache = invalidatedCache)
    ∧ (∀ id st v r, (updateStatusOp id st v area now s).1 = Except.ok r →
        (updateStatusOp id st v area now s).2.cache = invalidatedCache)
    ∧ (∀ id u r, (updateSiteOp id u area now s).1 = Except.ok r →
        (updateSiteOp id u area now s).2.cache = invalidatedCache)
    ∧ (∀ id r, (deleteSiteOp id area now s).1 = Except.ok r →
        (deleteSiteOp id area now s).2.cache = invalidatedCache)
    ∧ (∀ u, (updateSettingsOp u area now s).2.cache = invalidatedCache)
    ∧ ((resetDailyStatusOp area now s).2.cache = invalidatedCache)
    ∧ ((clearAllDataOp area s).cache = invalidatedCache)
    ∧ (s.cache = invalidatedCache →
        (getSitesOp area now s).2.getCount = s.getCount + 1
        ∧ (getSettingsOp area now s).2.getCount = s.getCount + 1) := by
  refine ⟨?_, ?_, ?_, ?_, ?_, ?_, ?_, ?_, ?_, ?_⟩
  · intro c hc hv
    exact getSitesOp_hit hc hv area
  · intro hmiss
    have hread := getSitesOp_miss hmiss area
    rw [hread]
    refine ⟨rfl, rfl, rfl, ?_⟩
    intro ht
    have hc : (readSites area now s).2.cache.sitesCache = some ((readSites area now s).1) := rfl
    have hv : isCacheValid t2 (readSites area now s).2.cache = true := by
      simp only [isCacheValid, readSites, CACHE_TTL]
      exact decide_eq_true ht
    exact getSitesOp_hit hc hv area
  · intro input freshId r hok
    rw [addSiteOp_eq] at hok
    cases hfind : (getSitesOp area now s).1.find?
        (fun site => site.hostname == extractHostname input.url) with
    | some x => rw [hfind] at hok; cases hok
    | none =>
        have h2 : (addSiteOp input freshId area now s).2
            = commitSites area ((getSitesOp area now s).1
                ++ [newSiteEntry input freshId (extractHostname input.url) now])
              (getSitesOp area now s).2 := by
          rw [addSiteOp_eq, hfind]
        rw [h2]
        exact commitSites_cache area _ _
  · intro id st v r hok
    rw [updateStatusOp_eq] at hok
    cases hfs : findSplit (fun site => site.id == id) (getSitesOp area now s).1 with
    | none => rw [hfs] at hok; cases hok
    | some y =>
        obtain ⟨pre, site, post⟩ := y
        have h2 : (updateStatusOp id st v area now s).2
            = commitSites area (pre ++ updateStatusSite st v now site :: post)
              (getSitesOp area now s).2 := by
          rw [updateStatusOp_eq, hfs]
        rw [h2]
        exact commitSites_cache area _ _
  · intro id u r hok
    cases hfs : findSplit (fun site => site.id == id) (getSitesOp area now s).1 with
    | none => rw [updateSiteOp_notFound u hfs] at hok; cases hok
    | some y =>
        obtain ⟨pre, site, post⟩ := y
        rw [updateSiteOp_found u hfs] at hok
        by_cases hcond : (urlTruthy u && (getSitesOp area now s).1.any (fun t =>
            t.hostname == (if urlTruthy u then extractHostname (u.url.getD "")
              else site.hostname) && t.id != id)) = true
        · rw [if_pos hcond] at hok; cases hok
        · rw [updateSiteOp_found u hfs, if_neg hcond]
          exact commitSites_cache area _ _
  · intro id r hok
    rw [deleteSiteOp_eq] at hok
    cases hfs : findSplit (fun site => site.id == id) (getSitesOp area now s).1 with
    | none => rw [hfs] at hok; cases hok
    | some y =>
        obtain ⟨pre, site, post⟩ := y
        have h2 : (deleteSiteOp id area now s).2
            = commitSites area (pre ++ post) (getSitesOp area now s).2 := by
          rw [deleteSiteOp_eq, hfs]
        rw [h2]
        exact commitSites_cache area _ _
  · intro u
    rw [updateSettingsOp_eq]
    exact commitSettings_cache area _ _
  · rw [resetDailyStatusOp_eq]
    exact commitSites_cache area _ _
  · cases area <;> rfl
  · intro hcache
    constructor
    · have hmiss : s.cache.sitesCache = none := by rw [hcache]; rfl
      rw [getSitesOp_miss (Or.inl hmiss) area]
      rfl
    · have hmiss : s.cache.settingsCache = none := by rw [hcache]; rfl
      rw [getSettingsOp_miss now (Or.inl hmiss) area]
      rfl

/-- Witness for C4 at a concrete input: after the read at t=0, the call
at t=1 returns the cached value and state unchanged, and after a
mutation the next read hits storage. -/
theorem C4_witness :
    getSitesOp StorageArea.sync 1 (getSitesOp StorageArea.sync 0 initialState).2
      = ((getSitesOp StorageArea.sync 0 initialState).1,
        (getSitesOp StorageArea.sync 0 initialState).2)
    ∧ (getSitesOp StorageArea.sync 2
        (updateSettingsOp emptyPartialSettings StorageArea.sync 1
          initialState).2).2.getCount
      = (updateSettingsOp emptyPartialSettings StorageArea.sync 1
          initialState).2.getCount + 1 := by
  constructor
  · exact ((C4_amended_cache StorageArea.sync 0 1 initialState).2.1
      (Or.inl rfl)).2.2.2 (by decide)
  · refine ((C4_amended_cache StorageArea.sync 2 0
      (updateSettingsOp emptyPartialSettings StorageArea.sync 1 initialState).2).2.2.2.2.2.2.2.2.2
      ?_).1
    exact (C4_amended_cache StorageArea.sync 1 0 initialState).2.2.2.2.2.2.1
      emptyPartialSettings

/-- C5: for every input whose hostname collides with no site in the
collection the operation reads, addSite returns ok with the freshly
generated id, false status flags, null timestamps, empty history, the
documented defaults for favicon, tags, frequency, autoDetect and
reminderEnabled, and createdAt = updatedAt = now; the full collection
with the new record appended is persisted, and a subsequent getSiteById
on the returned id yields a record with the same url and title and the
hostname derived from the input URL. -/
theorem C5_addSite_success (input : AddSiteInput) (freshId : String)
    (area : StorageArea) (now now2 : Int) (s : MachineState)
    (hdup : ∀ site ∈ (getSitesOp area now s).1,
      site.hostname ≠ extractHostname input.url)
    (hfresh : ∀ site ∈ (getSitesOp area now s).1, site.id ≠ freshId) :
    (addSiteOp input freshId area now s).1
      = Except.ok (newSiteEntry input freshId (extractHostname input.url) now)
    ∧ (newSiteEntry input freshId (extractHostname input.url) now).id = freshId
    ∧ (newSiteEntry input freshId (extractHostname input.url) now).visitedStatus = false
    ∧ (newSiteEntry input freshId (extractHostname input.url) now).checkedInStatus = false
    ∧ (newSiteEntry input freshId (extractHostname input.url) now).lastVisitedAt = none
    ∧ (newSiteEntry input freshId (extractHostname input.url) now).lastCheckedInAt = none
    ∧ (newSiteEntry input freshId (extractHostname input.url) now).checkInHistory = []
    ∧ (newSiteEntry input freshId (extractHostname input.url) now).favicon
        = input.favicon.getD ""
    ∧ (newSiteEntry input freshId (extractHostname input.url) now).tags
        = some (input.tags.getD [])
    ∧ (newSiteEntry input freshId (extractHostname input.url) now).frequency
        = input.frequency.getD CheckInFrequency.daily
    ∧ (newSiteEntry input freshId (extractHostname input.url) now).autoDetect
        = input.autoDetect.getD true
    ∧ (newSiteEntry input freshId (extractHostname input.url) now).reminderEnabled
        = input.reminderEnabled.getD true
    ∧ (newSiteEntry input freshId (extractHostname input.url) now).createdAt = now
    ∧ (newSiteEntry input freshId (extractHostname input.url) now).updatedAt = now
    ∧ (storeOf area (addSiteOp input freshId area now s).2).sites
        = some ((getSitesOp area now s).1
            ++ [newSiteEntry input freshId (extractHostname input.url) now])
    ∧ (getSiteByIdOp freshId area now2 (addSiteOp input freshId area now s).2).1
        = some (deriveSite now2 (newSiteEntry input freshId (extractHostname input.url) now))
    ∧ (deriveSite now2 (newSiteEntry input freshId (extractHostname input.url) now)).url
        = input.url
    ∧ (deriveSite now2 (newSiteEntry input freshId (extractHostname input.url) now)).title
        = input.title
    ∧ (deriveSite now2 (newSiteEntry input freshId (extractHostname input.url) now)).hostname
        = extractHostname input.url := by
  have hfind : (getSitesOp area now s).1.find?
      (fun site => site.hostname == extractHostname input.url) = none := by
    apply List.find?_eq_none.mpr
    intro x hx
    simpa using hdup x hx
  have hadd := addSiteOp_fresh freshId hfind
  have hs1 : (addSiteOp input freshId area now s).2
      = commitSites area ((getSitesOp area now s).1
          ++ [newSiteEntry input freshId (extractHostname input.url) now])
        (getSitesOp area now s).2 := by
    rw [hadd]
  have hcache : (addSiteOp input freshId area now s).2.cache.sitesCache = none := by
    rw [hs1, commitSites_cache]
    rfl
  have hstore : (storeOf area (addSiteOp input freshId area now s).2).sites
      = some ((getSitesOp area now s).1
          ++ [newSiteEntry input freshId (extractHostname input.url) now]) := by
    rw [hs1]
    exact commitSites_store area _ _
  have hlist : (getSitesOp area now2 (addSiteOp input freshId area now s).2).1
      = ((getSitesOp area now s).1
          ++ [newSiteEntry input freshId (extractHostname input.url) now]).map
          (deriveSite now2) := by
    rw [getSitesOp_miss (Or.inl hcache) area]
    show ((storeOf area (addSiteOp input freshId area now s).2).sites.getD []).map
        (deriveSite now2) = _
    rw [hstore]
    rfl
  have hfind2 : (((getSitesOp area now s).1
      ++ [newSiteEntry input freshId (extractHostname input.url) now]).map
        (deriveSite now2)).find? (fun site => site.id == freshId)
      = some (deriveSite now2
          (newSiteEntry input freshId (extractHostname input.url) now)) := by
    rw [List.map_append, List.find?_append]
    have h1 : ((getSitesOp area now s).1.map (deriveSite now2)).find?
        (fun site => site.id == freshId) = none := by
      apply List.find?_eq_none.mpr
      intro x hx
      obtain ⟨y, hy, hyeq⟩ := List.mem_map.mp hx
      rw [← hyeq]
      simpa using hfresh y hy
    rw [h1]
    simp [List.find?, newSiteEntry, deriveSite]
  refine ⟨by rw [hadd], rfl, rfl, rfl, rfl, rfl, rfl, rfl, rfl, rfl, rfl, rfl, rfl, rfl,
    hstore, ?_, rfl, rfl, rfl⟩
  show (getSitesOp area now2 (addSiteOp input freshId area now s).2).1.find?
      (fun site => site.id == freshId) = _
  rw [hlist, hfind2]

/-- Witness for C5 at a concrete input: adding to the empty store. -/
theorem C5_witness :
    (addSiteOp { title := "Demo", url := "https://demo.example.com/x" } "id1"
        StorageArea.sync 7 initialState).1
      = Except.ok (newSiteEntry { title := "Demo", url := "https://demo.example.com/x" }
          "id1" (extractHostname "https://demo.example.com/x") 7)
    ∧ (getSiteByIdOp "id1" StorageArea.sync 9
        (addSiteOp { title := "Demo", url := "https://demo.example.com/x" } "id1"
          StorageArea.sync 7 initialState).2).1
      = some (deriveSite 9 (newSiteEntry
          { title := "Demo", url := "https://demo.example.com/x" } "id1"
          (extractHostname "https://demo.example.com/x") 7)) := by
  have h := C5_addSite_success { title := "Demo", url := "https://demo.example.com/x" }
    "id1" StorageArea.sync 7 9 initialState (by decide) (by decide)
  exact ⟨h.1, h.2.2.2.2.2.2.2.2.2.2.2.2.2.2.2.1⟩

/-- C6: updateStatus with an absent id rejects with the not-found error
and writes nothing; with a present id it returns and persists the record
with updatedAt bumped and, for value true, the matching timestamp set to
now and a history record appended (visit records for visited, manual
records for checkedIn); with value false only the boolean flag changes
while timestamps and history stay untouched. -/
theorem C6_updateStatus :
    (∀ id st v area now (s : MachineState),
      (∀ site ∈ (getSitesOp area now s).1, site.id ≠ id) →
      updateStatusOp id st v area now s
        = (Except.error ("Site with id \"" ++ id ++ "\" not found"),
          (getSitesOp area now s).2)
      ∧ strContains ("Site with id \"" ++ id ++ "\" not found") "not found"
      ∧ (updateStatusOp id st v area now s).2.syncStore = s.syncStore
      ∧ (updateStatusOp id st v area now s).2.localStore = s.localStore
      ∧ (updateStatusOp id st v area now s).2.setCount = s.setCount)
    ∧ (∀ id st v area now (s : MachineState),
      s.cache.sitesCache = none →
      (∀ site ∈ (storeOf area s).sites.getD [], site.id ≠ id) →
      (updateStatusOp id st v area now s).1
        = Except.error ("Site with id \"" ++ id ++ "\" not found")
      ∧ (updateStatusOp id st v area now s).2.syncStore = s.syncStore
      ∧ (updateStatusOp id st v area now s).2.localStore = s.localStore)
    ∧ (∀ id st v area now (s : MachineState) pre site post,
      findSplit (fun t => t.id == id) (getSitesOp area now s).1 = some (pre, site, post) →
      (updateStatusOp id st v area now s).1 = Except.ok (updateStatusSite st v now site)
      ∧ (storeOf area (updateStatusOp id st v area now s).2).sites
        = some (pre ++ updateStatusSite st v now site :: post))
    ∧ (∀ (site : SiteEntry) now, updateStatusSite StatusType.visited true now site
        = { site with
            updatedAt := now
            visitedStatus := true
            lastVisitedAt := some now
            checkInHistory := site.checkInHistory ++ [⟨now, RecordType.visit⟩] })
    ∧ (∀ (site : SiteEntry) now, updateStatusSite StatusType.checkedIn true now site
        = { site with
            updatedAt := now
            checkedInStatus := true
            lastCheckedInAt := some now
            checkInHistory := site.checkInHistory ++ [⟨now, RecordType.manual⟩] })
    ∧ (∀ (site : SiteEntry) now,
        updateStatusSite StatusType.visited false now site
          = { site with updatedAt := now, visitedStatus := false }
        ∧ updateStatusSite StatusType.checkedIn false now site
          = { site with updatedAt := now, checkedInStatus := false }) := by
  refine ⟨?_, ?_, ?_, ?_, ?_, ?_⟩
  · intro id st v area now s habsent
    have hfs : findSplit (fun t => t.id == id) (getSitesOp area now s).1 = none := by
      apply findSplit_eq_none
      intro x hx
      simpa using habsent x hx
    have herr := updateStatusOp_notFound st v hfs
    obtain ⟨h1, h2, h3⟩ := getSitesOp_stores area now s
    refine ⟨herr, strContains_notFound id, ?_, ?_, ?_⟩
    · rw [herr]; exact h1
    · rw [herr]; exact h2
    · rw [herr]; exact h3
  · intro id st v area now s hcache habsent
    have hlist : (getSitesOp area now s).1
        = ((storeOf area s).sites.getD []).map (deriveSite now) := by
      rw [getSitesOp_miss (Or.inl hcache) area]
      rfl
    have habsent2 : ∀ site ∈ (getSitesOp area now s).1, site.id ≠ id := by
      intro x hx
      rw [hlist] at hx
      obtain ⟨y, hy, hyeq⟩ := List.mem_map.mp hx
      rw [← hyeq]
      exact habsent y hy
    have hfs : findSplit (fun t => t.id == id) (getSitesOp area now s).1 = none := by
      apply findSplit_eq_none
      intro x hx
      simpa using habsent2 x hx
    have herr := updateStatusOp_notFound st v hfs
    obtain ⟨h1, h2, _⟩ := getSitesOp_stores area now s
    refine ⟨by rw [herr], ?_, ?_⟩
    · rw [herr]; exact h1
    · rw [herr]; exact h2
  · intro id st v area now s pre site post hfs
    have hok := updateStatusOp_found st v hfs
    refine ⟨by rw [hok], ?_⟩
    rw [hok]
    exact commitSites_store area _ _
  · intro site now
    rfl
  · intro site now
    rfl
  · intro site now
    exact ⟨rfl, rfl⟩

/-- Witness for C6 at concrete inputs: the absent id rejects on the
empty store, and marking the fixture site visited at t=3 appends one
visit record. -/
theorem C6_witness :
    (updateStatusOp "missing" StatusType.visited true StorageArea.sync 0 initialState).1
      = Except.error ("Site with id \"" ++ "missing" ++ "\" not found")
    ∧ (updateStatusOp "b1" StatusType.visited true StorageArea.sync 3 exTraceB).1
      = Except.ok (updateStatusSite StatusType.visited true 3
          (deriveSite 3 (newSiteEntry { title := "B", url := "https://b.com/" } "b1"
            (extractHostname "https://b.com/") 1))) := by
  constructor
  · have h := C6_updateStatus.1 "missing" StatusType.visited true StorageArea.sync 0
      initialState (by decide)
    exact congrArg Prod.fst h.1
  · have h := C6_updateStatus.2.2.1 "b1" StatusType.visited true StorageArea.sync 3
      exTraceB [deriveSite 3 (newSiteEntry { title := "A", url := "" } "a1"
        (extractHostname "") 0)]
      (deriveSite 3 (newSiteEntry { title := "B", url := "https://b.com/" } "b1"
        (extractHostname "https://b.com/") 1)) [] (by decide)
    exact h.1

/-- Committing settings writes the persisted full object. -/
theorem commitSettings_store (area : StorageArea) (x : ReminderSettings)
    (s : MachineState) :
    (storeOf area (commitSettings area x s)).settings = some (toPartialSettings x) := by
  cases area <;> rfl

/-- C7 as stated is false: a present but empty patch URL is falsy in
JavaScript, so updateSite skips the hostname recomputation and the
duplicate check.  In this trace another site (id a1) owns the derived
hostname of the patch URL (the raw empty string), yet the update
succeeds and keeps the old hostname b.com. -/
theorem C7_counterexample :
    ((exTraceB.syncStore.sites.getD []).any (fun t =>
        t.hostname == extractHostname "" && t.id != "b1")) = true
    ∧ (resultOk (updateSiteOp "b1" { url := some "" } StorageArea.sync 2 exTraceB).1).map
        SiteEntry.hostname = some "b.com"
    ∧ (resultOk (updateSiteOp "b1" { url := some "" } StorageArea.sync 2 exTraceB).1).map
        SiteEntry.url = some "" := by
  refine ⟨by decide, by decide, by decide⟩

/-- C7 (amended): updateSite rejects with the not-found error when the
id is absent, and with the already-exists error when the patch URL is
present and non-empty and its derived hostname is owned by a site with
a different id; both failures leave the stores and the write counter
untouched.  On success it returns and persists the shallow merge of the
patch onto the record, with updatedAt bumped and the hostname
recomputed exactly when the patch URL is present and non-empty
(otherwise the prior hostname is kept). -/
theorem C7_amended_updateSite :
    (∀ id (u : UpdateSiteInput) area now (s : MachineState),
      (∀ site ∈ (getSitesOp area now s).1, site.id ≠ id) →
      updateSiteOp id u area now s
        = (Except.error ("Site with id \"" ++ id ++ "\" not found"),
          (getSitesOp area now s).2)
      ∧ strContains ("Site with id \"" ++ id ++ "\" not found") "not found"
      ∧ (updateSiteOp id u area now s).2.syncStore = s.syncStore
      ∧ (updateSiteOp id u area now s).2.localStore = s.localStore
      ∧ (updateSiteOp id u area now s).2.setCount = s.setCount)
    ∧ (∀ id (u : UpdateSiteInput) area now (s : MachineState) pre site post,
      findSplit (fun t => t.id == id) (getSitesOp area now s).1 = some (pre, site, post) →
      urlTruthy u = true →
      ((getSitesOp area now s).1.any (fun t =>
        t.hostname == extractHostname (u.url.getD "") && t.id != id)) = true →
      (updateSiteOp id u area now s).1
        = Except.error ("Site with hostname \"" ++ extractHostname (u.url.getD "")
            ++ "\" already exists")
      ∧ strContains ("Site with hostname \"" ++ extractHostname (u.url.getD "")
          ++ "\" already exists") "already exists"
      ∧ (updateSiteOp id u area now s).2.syncStore = s.syncStore
      ∧ (updateSiteOp id u area now s).2.localStore = s.localStore
      ∧ (updateSiteOp id u area now s).2.setCount = s.setCount)
    ∧ (∀ id (u : UpdateSiteInput) area now (s : MachineState) pre site post,
      findSplit (fun t => t.id == id) (getSitesOp area now s).1 = some (pre, site, post) →
      ((urlTruthy u && (getSitesOp area now s).1.any (fun t =>
          t.hostname == (if urlTruthy u then extractHostname (u.url.getD "")
            else site.hostname) && t.id != id)) = false) →
      (updateSiteOp id u area now s).1
        = Except.ok (mergeSite site u
            (if urlTruthy u then extractHostname (u.url.getD "") else site.hostname) now)
      ∧ (storeOf area (updateSiteOp id u area now s).2).sites
        = some (pre ++ mergeSite site u
            (if urlTruthy u then extractHostname (u.url.getD "") else site.hostname) now
            :: post))
    ∧ (∀ (site : SiteEntry) (u : UpdateSiteInput) hostname now,
        (mergeSite site u hostname now).updatedAt = now
        ∧ (mergeSite site u hostname now).hostname = hostname
        ∧ (mergeSite site u hostname now).id = site.id
        ∧ (mergeSite site u hostname now).createdAt = site.createdAt
        ∧ (mergeSite site u hostname now).title = u.title.getD site.title
        ∧ (mergeSite site u hostname now).url = u.url.getD site.url
        ∧ (mergeSite site u hostname now).favicon = u.favicon.getD site.favicon
        ∧ (mergeSite site u hostname now).checkInHistory
            = u.checkInHistory.getD site.checkInHistory) := by
  refine ⟨?_, ?_, ?_, ?_⟩
  · intro id u area now s habsent
    have hfs : findSplit (fun t => t.id == id) (getSitesOp area now s).1 = none := by
      apply findSplit_eq_none
      intro x hx
      simpa using habsent x hx
    have herr := updateSiteOp_notFound u hfs
    obtain ⟨h1, h2, h3⟩ := getSitesOp_stores area now s
    refine ⟨herr, strContains_notFound id, ?_, ?_, ?_⟩
    · rw [herr]; exact h1
    · rw [herr]; exact h2
    · rw [herr]; exact h3
  · intro id u area now s pre site post hfs htr hany
    have heq := updateSiteOp_found u hfs
    have hcond : (urlTruthy u
        && (getSitesOp area now s).1.any (fun t =>
          t.hostname == (if urlTruthy u then extractHostname (u.url.getD "")
            else site.hostname) && t.id != id)) = true := by
      simp only [htr, if_true, Bool.true_and]
      exact hany
    rw [if_pos hcond] at heq
    simp only [htr, if_true] at heq
    obtain ⟨h1, h2, h3⟩ := getSitesOp_stores area now s
    refine ⟨by rw [heq], strContains_alreadyExists _, ?_, ?_, ?_⟩
    · rw [heq]; exact h1
    · rw [heq]; exact h2
    · rw [heq]; exact h3
  · intro id u area now s pre site post hfs hfalse
    have heq := updateSiteOp_found u hfs
    rw [if_neg (by rw [hfalse]; exact Bool.false_ne_true)] at heq
    refine ⟨by rw [heq], ?_⟩
    rw [heq]
    exact commitSites_store area _ _
  · intro site u hostname now
    exact ⟨rfl, rfl, rfl, rfl, rfl, rfl, rfl, rfl⟩

/-- Witness for C7 at concrete inputs: updating the a1 fixture site to a
URL whose hostname b.com is owned by b1 rejects; patching only the
title succeeds and keeps the hostname. -/
theorem C7_witness :
    (updateSiteOp "a1" { url := some "https://b.com/z" } StorageArea.sync 5 exTraceB).1
      = Except.error ("Site with hostname \""
          ++ extractHostname ((some "https://b.com/z" : Option String).getD "")
          ++ "\" already exists")
    ∧ (updateSiteOp "missing" { } StorageArea.sync 5 exTraceB).1
      = Except.error ("Site with id \"" ++ "missing" ++ "\" not found") := by
  constructor
  · have h := C7_amended_updateSite.2.1 "a1" { url := some "https://b.com/z" }
      StorageArea.sync 5 exTraceB []
      (deriveSite 5 (newSiteEntry { title := "A", url := "" } "a1" (extractHostname "") 0))
      [deriveSite 5 (newSiteEntry { title := "B", url := "https://b.com/" } "b1"
        (extractHostname "https://b.com/") 1)]
      (by decide) (by decide) (by decide)
    exact h.1
  · have h := C7_amended_updateSite.1 "missing" { } StorageArea.sync 5 exTraceB
      (by decide)
    exact congrArg Prod.fst h.1

/-- C8: getSettings merges the stored partial settings object onto the
documented defaults with stored values winning per key, so on empty
storage it returns exactly the default object (reminders disabled, one
enabled 09:00 Monday-to-Friday time, sound on, 30 minute snooze,
auto-mark off, system theme, badge on, reset hour 0); and updateSettings
followed by getSettings returns exactly the prior settings with the
patched keys replaced. -/
theorem C8_settings_merge (area : StorageArea) (now now2 : Int) (s : MachineState)
    (patch : PartialSettings) :
    (s.cache.settingsCache = none → (storeOf area s).settings = none →
      (getSettingsOp area now s).1
        = { enabled := false
            times := [⟨"default", 9, 0, [1, 2, 3, 4, 5], true⟩]
            sound := true
            snoozeMinutes := 30
            autoMarkOnVisit := false
            theme := ThemePreference.system
            showBadge := true
            resetTime := 0 })
    ∧ (s.cache.settingsCache = none →
        ∀ p, (storeOf area s).settings = some p →
          (getSettingsOp area now s).1.enabled = p.enabled.getD false
          ∧ (getSettingsOp area now s).1.times = p.times.getD [DEFAULT_REMINDER_TIME]
          ∧ (getSettingsOp area now s).1.sound = p.sound.getD true
          ∧ (getSettingsOp area now s).1.snoozeMinutes = p.snoozeMinutes.getD 30
          ∧ (getSettingsOp area now s).1.autoMarkOnVisit = p.autoMarkOnVisit.getD false
          ∧ (getSettingsOp area now s).1.theme = p.theme.getD ThemePreference.system
          ∧ (getSettingsOp area now s).1.showBadge = p.showBadge.getD true
          ∧ (getSettingsOp area now s).1.resetTime = p.resetTime.getD 0)
    ∧ ((getSettingsOp area now2 (updateSettingsOp patch area now s).2).1
        = mergeSettings (getSettingsOp area now s).1 patch
      ∧ (updateSettingsOp patch area now s).1
        = mergeSettings (getSettingsOp area now s).1 patch
      ∧ (mergeSettings (getSettingsOp area now s).1 patch).enabled
        = patch.enabled.getD (getSettingsOp area now s).1.enabled
      ∧ (mergeSettings (getSettingsOp area now s).1 patch).times
        = patch.times.getD (getSettingsOp area now s).1.times
      ∧ (mergeSettings (getSettingsOp area now s).1 patch).sound
        = patch.sound.getD (getSettingsOp area now s).1.sound
      ∧ (mergeSettings (getSettingsOp area now s).1 patch).snoozeMinutes
        = patch.snoozeMinutes.getD (getSettingsOp area now s).1.snoozeMinutes
      ∧ (mergeSettings (getSettingsOp area now s).1 patch).autoMarkOnVisit
        = patch.autoMarkOnVisit.getD (getSettingsOp area now s).1.autoMarkOnVisit
      ∧ (mergeSettings (getSettingsOp area now s).1 patch).theme
        = patch.theme.getD (getSettingsOp area now s).1.theme
      ∧ (mergeSettings (getSettingsOp area now s).1 patch).showBadge
        = patch.showBadge.getD (getSettingsOp area now s).1.showBadge
      ∧ (mergeSettings (getSettingsOp area now s).1 patch).resetTime
        = patch.resetTime.getD (getSettingsOp area now s).1.resetTime) := by
  refine ⟨?_, ?_, ?_⟩
  · intro hcache hstore
    rw [getSettingsOp_miss now (Or.inl hcache) area]
    show mergeSettings DEFAULT_REMINDER_SETTINGS
        ((storeOf area s).settings.getD emptyPartialSettings) = _
    rw [hstore]
    rfl
  · intro hcache p hstore
    have hval : (getSettingsOp area now s).1 = mergeSettings DEFAULT_REMINDER_SETTINGS p := by
      rw [getSettingsOp_miss now (Or.inl hcache) area]
      show mergeSettings DEFAULT_REMINDER_SETTINGS
          ((storeOf area s).settings.getD emptyPartialSettings) = _
      rw [hstore]
      rfl
    rw [hval]
    exact ⟨rfl, rfl, rfl, rfl, rfl, rfl, rfl, rfl⟩
  · have hs1 : (updateSettingsOp patch area now s).2
        = commitSettings area (mergeSettings (getSettingsOp area now s).1 patch)
          (getSettingsOp area now s).2 := by
      rw [updateSettingsOp_eq]
    have hcache : (updateSettingsOp patch area now s).2.cache.settingsCache = none := by
      rw [hs1, commitSettings_cache]
      rfl
    have hread := getSettingsOp_miss now2 (Or.inl hcache) area
    refine ⟨?_, by rw [updateSettingsOp_eq], rfl, rfl, rfl, rfl, rfl, rfl, rfl, rfl⟩
    rw [hread]
    show mergeSettings DEFAULT_REMINDER_SETTINGS
        ((storeOf area (updateSettingsOp patch area now s).2).settings.getD
          emptyPartialSettings) = _
    rw [hs1, commitSettings_store]
    show mergeSettings DEFAULT_REMINDER_SETTINGS
        (toPartialSettings (mergeSettings (getSettingsOp area now s).1 patch)) = _
    rw [mergeSettings_toPartial]

/-- Witness for C8 at concrete inputs: the empty store yields exactly
the defaults, and patching the theme to dark round-trips with every
other key unchanged. -/
theorem C8_witness :
    (getSettingsOp StorageArea.sync 0 initialState).1
      = { enabled := false
          times := [⟨"default", 9, 0, [1, 2, 3, 4, 5], true⟩]
          sound := true
          snoozeMinutes := 30
          autoMarkOnVisit := false
          theme := ThemePreference.system
          showBadge := true
          resetTime := 0 }
    ∧ (getSettingsOp StorageArea.sync 9
        (updateSettingsOp { theme := some ThemePreference.dark } StorageArea.sync 0
          initialState).2).1
      = mergeSettings (getSettingsOp StorageArea.sync 0 initialState).1
          { theme := some ThemePreference.dark } := by
  constructor
  · exact (C8_settings_merge StorageArea.sync 0 0 initialState
      emptyPartialSettings).1 rfl rfl
  · exact (C8_settings_merge StorageArea.sync 0 9 initialState
      { theme := some ThemePreference.dark }).2.2.1

/-- C9 as stated is false: `UpdateSiteInput` includes `checkInHistory`
(only id, createdAt, updatedAt and hostname are omitted), so updateSite
with an explicit history patch replaces the stored history wholesale.
In this trace the b1 site has one visit record; after
updateSite(b1, \x7b checkInHistory: [] \x7d) the stored history is empty,
and the prior history is not a prefix of the new one. -/
theorem C9_counterexample :
    ((exTraceC.syncStore.sites.getD []).map SiteEntry.checkInHistory)
      = [[], [⟨3, RecordType.visit⟩]]
    ∧ (((updateSiteOp "b1" { checkInHistory := some [] } StorageArea.sync 4
          exTraceC).2.syncStore.sites.getD []).map SiteEntry.checkInHistory)
      = [[], []]
    ∧ ¬ historyExtends [⟨3, RecordType.visit⟩] [] := by
  refine ⟨by decide, by decide, ?_⟩
  rintro ⟨suffix, hsuf⟩
  simp at hsuf

/-- C9 (amended): relative to the collection each operation reads, the
persisted collection only extends histories: addSite appends a record
with empty history and leaves the others in place; updateStatus
replaces the matched record with one whose history extends the prior
one (by a single appended record when the value is true, by nothing
otherwise); updateSite whose patch carries no checkInHistory key keeps
the matched record history unchanged; deleteSite removes a record and
leaves the others in place; resetDailyStatus rewrites every record with
its history untouched. -/
theorem C9_amended_history (area : StorageArea) (now : Int) (s : MachineState) :
    (∀ (input : AddSiteInput) freshId,
      (getSitesOp area now s).1.find?
          (fun site => site.hostname == extractHostname input.url) = none →
      (storeOf area (addSiteOp input freshId area now s).2).sites
        = some ((getSitesOp area now s).1
            ++ [newSiteEntry input freshId (extractHostname input.url) now])
      ∧ (newSiteEntry input freshId (extractHostname input.url) now).checkInHistory = [])
    ∧ (∀ id st v pre site post,
      findSplit (fun t => t.id == id) (getSitesOp area now s).1 = some (pre, site, post) →
      (storeOf area (updateStatusOp id st v area now s).2).sites
        = some (pre ++ updateStatusSite st v now site :: post)
      ∧ historyExtends site.checkInHistory (updateStatusSite st v now site).checkInHistory)
    ∧ (∀ id (u : UpdateSiteInput) pre site post,
      u.checkInHistory = none →
      findSplit (fun t => t.id == id) (getSitesOp area now s).1 = some (pre, site, post) →
      ((urlTruthy u && (getSitesOp area now s).1.any (fun t =>
          t.hostname == (if urlTruthy u then extractHostname (u.url.getD "")
            else site.hostname) && t.id != id)) = false) →
      (storeOf area (updateSiteOp id u area now s).2).sites
        = some (pre ++ mergeSite site u
            (if urlTruthy u then extractHostname (u.url.getD "") else site.hostname) now
            :: post)
      ∧ (mergeSite site u
          (if urlTruthy u then extractHostname (u.url.getD "") else site.hostname)
          now).checkInHistory = site.checkInHistory)
    ∧ (∀ id pre site post,
      findSplit (fun t => t.id == id) (getSitesOp area now s).1 = some (pre, site, post) →
      (storeOf area (deleteSiteOp id area now s).2).sites = some (pre ++ post))
    ∧ ((storeOf area (resetDailyStatusOp area now s).2).sites
        = some ((getSitesOp area now s).1.map (fun site =>
            { site with visitedStatus := false, checkedInStatus := false }))
      ∧ ∀ site : SiteEntry,
          ({ site with visitedStatus := false, checkedInStatus := false }
            : SiteEntry).checkInHistory = site.checkInHistory) := by
  refine ⟨?_, ?_, ?_, ?_, ?_, ?_⟩
  · intro input freshId hfind
    have hadd := addSiteOp_fresh freshId hfind
    refine ⟨?_, rfl⟩
    rw [hadd]
    exact commitSites_store area _ _
  · intro id st v pre site post hfs
    have hok := updateStatusOp_found st v hfs
    refine ⟨?_, ?_⟩
    · rw [hok]
      exact commitSites_store area _ _
    · cases st <;> cases v
      · exact ⟨[], (List.append_nil site.checkInHistory).symm⟩
      · exact ⟨[⟨now, RecordType.visit⟩], rfl⟩
      · exact ⟨[], (List.append_nil site.checkInHistory).symm⟩
      · exact ⟨[⟨now, RecordType.manual⟩], rfl⟩
  · intro id u pre site post hnone hfs hfalse
    have heq := updateSiteOp_found u hfs
    rw [if_neg (by rw [hfalse]; exact Bool.false_ne_true)] at heq
    refine ⟨?_, ?_⟩
    · rw [heq]
      exact commitSites_store area _ _
    · show u.checkInHistory.getD site.checkInHistory = site.checkInHistory
      rw [hnone]
      rfl
  · intro id pre site post hfs
    have hok := deleteSiteOp_found hfs
    rw [hok]
    exact commitSites_store area _ _
  · rw [resetDailyStatusOp_eq]
    exact commitSites_store area _ _
  · intro site
    rfl

/-- Witness for C9 at concrete inputs: marking the fixture site visited
appends exactly one record to its history, and the title-only update
keeps it. -/
theorem C9_witness :
    ((storeOf StorageArea.sync (updateStatusOp "b1" StatusType.visited true
        StorageArea.sync 3 exTraceB).2).sites
      = some ([deriveSite 3 (newSiteEntry { title := "A", url := "" } "a1"
          (extractHostname "") 0)]
        ++ updateStatusSite StatusType.visited true 3
            (deriveSite 3 (newSiteEntry { title := "B", url := "https://b.com/" } "b1"
              (extractHostname "https://b.com/") 1)) :: []))
    ∧ historyExtends
        (deriveSite 3 (newSiteEntry { title := "B", url := "https://b.com/" } "b1"
          (extractHostname "https://b.com/") 1)).checkInHistory
        (updateStatusSite StatusType.visited true 3
          (deriveSite 3 (newSiteEntry { title := "B", url := "https://b.com/" } "b1"
            (extractHostname "https://b.com/") 1))).checkInHistory := by
  have h := (C9_amended_history StorageArea.sync 3 exTraceB).2.1 "b1"
    StatusType.visited true
    [deriveSite 3 (newSiteEntry { title := "A", url := "" } "a1" (extractHostname "") 0)]
    (deriveSite 3 (newSiteEntry { title := "B", url := "https://b.com/" } "b1"
      (extractHostname "https://b.com/") 1)) [] (by decide)
  exact ⟨h.1, h.2⟩

/-- C1 second clause as stated is false: after a sync-area read
populates the shared cache, an addSite for the local area dedup-checks
against the cached sync collection, so an input whose hostname dup.com
is already owned by a local site succeeds instead of rejecting, and the
stored local collection changes (the prior local site is overwritten by
the cached sync collection plus the new record). -/
theorem C1_counterexample :
    ((exTraceL2.localStore.sites.getD []).map SiteEntry.hostname = ["dup.com"])
    ∧ extractHostname "https://dup.com/b" = "dup.com"
    ∧ (resultOk (addSiteOp { title := "X", url := "https://dup.com/b" } "id2"
        StorageArea.local 12 exTraceL2).1).isSome = true
    ∧ (((addSiteOp { title := "X", url := "https://dup.com/b" } "id2"
        StorageArea.local 12 exTraceL2).2.localStore.sites.getD []).map SiteEntry.id
      = ["id2"]) := by
  refine ⟨by decide, by decide, by decide, by decide⟩

/-- C1 (amended): hostname uniqueness is an invariant — in every state
reachable by the storage operations both stored collections carry
pairwise distinct hostnames — and the duplicate rejection holds
whenever the operation reads the target area (cache empty, e.g. right
after any mutation): an addSite whose derived hostname is owned by a
stored site of the area rejects with the already-exists error and
leaves both stores and the write counter unchanged, and likewise an
updateSite changing the URL (present and non-empty) to a hostname owned
by a different id in the collection it reads. -/
theorem C1_amended_hostname_unique :
    (∀ s : MachineState, Reachable s →
      ((s.syncStore.sites.getD []).map SiteEntry.hostname).Nodup
      ∧ ((s.localStore.sites.getD []).map SiteEntry.hostname).Nodup)
    ∧ (∀ (input : AddSiteInput) freshId area now (s : MachineState),
        s.cache.sitesCache = none →
        (∃ site ∈ (storeOf area s).sites.getD [],
          site.hostname = extractHostname input.url) →
        (addSiteOp input freshId area now s).1
          = Except.error ("Site with hostname \"" ++ extractHostname input.url
              ++ "\" already exists")
        ∧ strContains ("Site with hostname \"" ++ extractHostname input.url
            ++ "\" already exists") "already exists"
        ∧ (addSiteOp input freshId area now s).2.syncStore = s.syncStore
        ∧ (addSiteOp input freshId area now s).2.localStore = s.localStore
        ∧ (addSiteOp input freshId area now s).2.setCount = s.setCount)
    ∧ (∀ id (u : UpdateSiteInput) area now (s : MachineState) pre site post,
        findSplit (fun t => t.id == id) (getSitesOp area now s).1 = some (pre, site, post) →
        urlTruthy u = true →
        (∃ t ∈ (getSitesOp area now s).1,
          t.hostname = extractHostname (u.url.getD "") ∧ t.id ≠ id) →
        (updateSiteOp id u area now s).1
          = Except.error ("Site with hostname \"" ++ extractHostname (u.url.getD "")
              ++ "\" already exists")
        ∧ (updateSiteOp id u area now s).2.syncStore = s.syncStore
        ∧ (updateSiteOp id u area now s).2.localStore = s.localStore
        ∧ (updateSiteOp id u area now s).2.setCount = s.setCount) := by
  refine ⟨?_, ?_, ?_⟩
  · intro s h
    have hwf := Reachable_wf h
    exact ⟨hwf.1.2, hwf.2.1.2⟩
  · intro input freshId area now s hcache hex
    have hlist : (getSitesOp area now s).1
        = ((storeOf area s).sites.getD []).map (deriveSite now) := by
      rw [getSitesOp_miss (Or.inl hcache) area]
      rfl
    cases hfind : (getSitesOp area now s).1.find?
        (fun t => t.hostname == extractHostname input.url) with
    | none =>
        exfalso
        obtain ⟨site, hmem, hh⟩ := hex
        have hmem2 : deriveSite now site ∈ (getSitesOp area now s).1 := by
          rw [hlist]
          exact List.mem_map_of_mem _ hmem
        have hne := List.find?_eq_none.mp hfind _ hmem2
        rw [deriveSite_hostname] at hne
        simp only [beq_iff_eq] at hne
        exact hne hh
    | some x =>
        have hdup := addSiteOp_dup freshId hfind
        obtain ⟨h1, h2, h3⟩ := getSitesOp_stores area now s
        refine ⟨by rw [hdup], strContains_alreadyExists _, ?_, ?_, ?_⟩
        · rw [hdup]; exact h1
        · rw [hdup]; exact h2
        · rw [hdup]; exact h3
  · intro id u area now s pre site post hfs htr hex
    have hany : ((getSitesOp area now s).1.any (fun t =>
        t.hostname == extractHostname (u.url.getD "") && t.id != id)) = true := by
      obtain ⟨t, hmem, hh, hne⟩ := hex
      refine List.any_eq_true.mpr ⟨t, hmem, ?_⟩
      simp only [Bool.and_eq_true, beq_iff_eq, bne_iff_ne, ne_eq]
      exact ⟨hh, hne⟩
    have heq := updateSiteOp_found u hfs
    have hcond : (urlTruthy u
        && (getSitesOp area now s).1.any (fun t =>
          t.hostname == (if urlTruthy u then extractHostname (u.url.getD "")
            else site.hostname) && t.id != id)) = true := by
      simp only [htr, if_true, Bool.true_and]
      exact hany
    rw [if_pos hcond] at heq
    simp only [htr, if_true] at heq
    obtain ⟨h1, h2, h3⟩ := getSitesOp_stores area now s
    refine ⟨by rw [heq], ?_, ?_, ?_⟩
    · rw [heq]; exact h1
    · rw [heq]; exact h2
    · rw [heq]; exact h3

/-- Witness for C1 at concrete inputs: the single-add local state is
reachable and its stored hostnames are pairwise distinct, and with an
empty cache an addSite against the populated sync fixture rejects the
duplicate hostname and leaves the stores unchanged. -/
theorem C1_witness :
    (((exTraceL1.syncStore.sites.getD []).map SiteEntry.hostname).Nodup
      ∧ ((exTraceL1.localStore.sites.getD []).map SiteEntry.hostname).Nodup)
    ∧ (addSiteOp { title := "X", url := "https://sync.example/x" } "f1"
        StorageArea.sync 5 exStateTwoAreas).1
      = Except.error ("Site with hostname \""
          ++ extractHostname "https://sync.example/x" ++ "\" already exists")
    ∧ (addSiteOp { title := "X", url := "https://sync.example/x" } "f1"
        StorageArea.sync 5 exStateTwoAreas).2.localStore
      = exStateTwoAreas.localStore := by
  have hreach : Reachable exTraceL1 :=
    Relation.ReflTransGen.tail Relation.ReflTransGen.refl
      (Step.addSite { title := "L", url := "https://dup.com/a" } "id1"
        StorageArea.local 0 initialState (by decide))
  have h1 := C1_amended_hostname_unique.1 exTraceL1 hreach
  have h2 := C1_amended_hostname_unique.2.1 { title := "X", url := "https://sync.example/x" }
    "f1" StorageArea.sync 5 exStateTwoAreas rfl ⟨exSiteSync, by decide, by decide⟩
  exact ⟨h1, h2.1, h2.2.2.2.1⟩

end Clocky
